import Mathlib

/-!
Shallow embedding of the ray tracer (johnor/rust-raytracer) core in Lean 4,
with the scalar type `f64` modelled by `ℚ`.  All arithmetic the source performs
exactly on dyadic values is exact in this model; `f64::sqrt` is modelled by
`ratSqrt`, which is exact on perfect squares of rationals and is only ever
relied upon through explicit hypotheses (`ratSqrt d * ratSqrt d = d`) or on
perfect-square inputs.  Constants such as `f64::EPSILON` (2⁻⁵²) and the
source's literal epsilons are embedded exactly.
-/

/-- Machine epsilon of `f64`, `std::f64::EPSILON = 2⁻⁵²` (matrix.rs). -/
def f64Epsilon : ℚ := 1 / 2 ^ 52

/-- `Comps::OVER_POINT_EPSILON = 0.000_000_1` (world.rs). -/
def overPointEps : ℚ := 1 / 10 ^ 7

/-- The tolerance `0.0000000001` used by the `PartialEq` impl of the matrix
types (matrix.rs, `define_square_matrix_struct!`). -/
def matCmpEps : ℚ := 1 / 10 ^ 10

/-- Fuel-driven integer square root (largest `k ≤ fuel` with `k * k ≤ n`),
kernel-reducible stand-in for `Nat.sqrt`. -/
def natSqrtGo : Nat → Nat → Nat
  | 0, _ => 0
  | fuel + 1, n => if (fuel + 1) * (fuel + 1) ≤ n then fuel + 1 else natSqrtGo fuel n

/-- Integer square root: exact on perfect squares. -/
def natSqrt (n : Nat) : Nat := natSqrtGo n n

/-- Model of `f64::sqrt` on ℚ: exact on perfect squares of rationals,
`0` on nonpositive input (f64 gives `NaN` for negatives; no embedded code
path reaches that case with a claim attached). -/
def ratSqrt (q : ℚ) : ℚ :=
  if q ≤ 0 then 0 else (natSqrt q.num.toNat : ℚ) / (natSqrt q.den : ℚ)

theorem ratSqrt_nonneg (q : ℚ) : 0 ≤ ratSqrt q := by
  unfold ratSqrt
  split
  · exact le_refl 0
  · positivity

/-- `Tuple` (tuple.rs): 4-component `f64` tuple; `w = 1` marks a point,
`w = 0` a vector. -/
structure Tuple where
  x : ℚ
  y : ℚ
  z : ℚ
  w : ℚ
deriving DecidableEq, Repr

/-- `tuple::point` (tuple.rs). -/
def pointT (x y z : ℚ) : Tuple := ⟨x, y, z, 1⟩

/-- `tuple::vector` (tuple.rs). -/
def vectorT (x y z : ℚ) : Tuple := ⟨x, y, z, 0⟩

/-- Componentwise addition, `impl Add for Tuple` (tuple.rs). -/
def addT (a b : Tuple) : Tuple := ⟨a.x + b.x, a.y + b.y, a.z + b.z, a.w + b.w⟩

/-- Componentwise subtraction, `impl Sub for Tuple` (tuple.rs). -/
def subT (a b : Tuple) : Tuple := ⟨a.x - b.x, a.y - b.y, a.z - b.z, a.w - b.w⟩

/-- Negation, `impl Neg for Tuple` (tuple.rs). -/
def negT (a : Tuple) : Tuple := ⟨-a.x, -a.y, -a.z, -a.w⟩

/-- Scalar multiplication, `impl Mul<f64> for Tuple` (tuple.rs). -/
def smulT (a : Tuple) (s : ℚ) : Tuple := ⟨a.x * s, a.y * s, a.z * s, a.w * s⟩

/-- `Tuple::dot` (tuple.rs). -/
def dotT (a b : Tuple) : ℚ := a.x * b.x + a.y * b.y + a.z * b.z + a.w * b.w

/-- `Tuple::magnitude` (tuple.rs), with `ratSqrt` standing in for `f64::sqrt`. -/
def magnitudeT (a : Tuple) : ℚ := ratSqrt (a.x * a.x + a.y * a.y + a.z * a.z + a.w * a.w)

/-- `Tuple::normalize` (tuple.rs): divides every component by the magnitude. -/
def normalizeT (a : Tuple) : Tuple :=
  let m := magnitudeT a
  ⟨a.x / m, a.y / m, a.z / m, a.w / m⟩

/-- `Tuple::reflect` (tuple.rs): `*self - normal * 2. * self.dot(normal)`. -/
def reflectT (a normal : Tuple) : Tuple := subT a (smulT (smulT normal 2) (dotT a normal))

/-- `Color` (color.rs). -/
structure Color where
  r : ℚ
  g : ℚ
  b : ℚ
deriving DecidableEq, Repr

/-- `Color::black` (color.rs). -/
def Color.black : Color := ⟨0, 0, 0⟩

/-- `Color::white` (color.rs). -/
def Color.white : Color := ⟨1, 1, 1⟩

/-- `impl Add for Color` (color.rs). -/
def addC (a b : Color) : Color := ⟨a.r + b.r, a.g + b.g, a.b + b.b⟩

/-- Hadamard product, `impl Mul for Color` (color.rs). -/
def mulC (a b : Color) : Color := ⟨a.r * b.r, a.g * b.g, a.b * b.b⟩

/-- Scalar multiplication, `impl Mul<f64> for Color` (color.rs). -/
def smulC (a : Color) (s : ℚ) : Color := ⟨a.r * s, a.g * s, a.b * s⟩

/-- 2×2 matrix (matrix.rs, `define_square_matrix_struct!(Mat2x2, 2)`). -/
structure Mat2x2 where
  g00 : ℚ
  g01 : ℚ
  g10 : ℚ
  g11 : ℚ
deriving DecidableEq, Repr

/-- `Mat2x2::determinant` (matrix.rs): `ad − bc`. -/
def Mat2x2.determinant (m : Mat2x2) : ℚ := m.g00 * m.g11 - m.g01 * m.g10

/-- 3×3 matrix (matrix.rs, `define_square_matrix_struct!(Mat3x3, 3)`). -/
structure Mat3x3 where
  f00 : ℚ
  f01 : ℚ
  f02 : ℚ
  f10 : ℚ
  f11 : ℚ
  f12 : ℚ
  f20 : ℚ
  f21 : ℚ
  f22 : ℚ
deriving DecidableEq, Repr

/-- 4×4 matrix (matrix.rs, `define_square_matrix_struct!(Mat4x4, 4)`). -/
structure Mat4x4 where
  m00 : ℚ
  m01 : ℚ
  m02 : ℚ
  m03 : ℚ
  m10 : ℚ
  m11 : ℚ
  m12 : ℚ
  m13 : ℚ
  m20 : ℚ
  m21 : ℚ
  m22 : ℚ
  m23 : ℚ
  m30 : ℚ
  m31 : ℚ
  m32 : ℚ
  m33 : ℚ
deriving DecidableEq, Repr

/-- Row/column access `self[i][j]` on `Mat3x3`; out-of-range indices (never
produced by the embedded code) give `0`. -/
def Mat3x3.entry (m : Mat3x3) (i j : Nat) : ℚ :=
  match i, j with
  | 0, 0 => m.f00
  | 0, 1 => m.f01
  | 0, 2 => m.f02
  | 1, 0 => m.f10
  | 1, 1 => m.f11
  | 1, 2 => m.f12
  | 2, 0 => m.f20
  | 2, 1 => m.f21
  | 2, 2 => m.f22
  | _, _ => 0

/-- Row/column access `self[i][j]` on `Mat4x4`; out-of-range indices give `0`. -/
def Mat4x4.entry (m : Mat4x4) (i j : Nat) : ℚ :=
  match i, j with
  | 0, 0 => m.m00
  | 0, 1 => m.m01
  | 0, 2 => m.m02
  | 0, 3 => m.m03
  | 1, 0 => m.m10
  | 1, 1 => m.m11
  | 1, 2 => m.m12
  | 1, 3 => m.m13
  | 2, 0 => m.m20
  | 2, 1 => m.m21
  | 2, 2 => m.m22
  | 2, 3 => m.m23
  | 3, 0 => m.m30
  | 3, 1 => m.m31
  | 3, 2 => m.m32
  | 3, 3 => m.m33
  | _, _ => 0

/-- Source-index arithmetic of `impl_sub_matrix!`: the row/column index kept at
position `i` when row/column `r` is removed (`i - k` inverted). -/
def skipIdx (r i : Nat) : Nat := if i < r then i else i + 1

/-- `Mat3x3::submatrix` (matrix.rs, `impl_sub_matrix!(Mat3x3, Mat2x2)`). -/
def Mat3x3.submatrix (m : Mat3x3) (r c : Nat) : Mat2x2 :=
  ⟨m.entry (skipIdx r 0) (skipIdx c 0), m.entry (skipIdx r 0) (skipIdx c 1),
   m.entry (skipIdx r 1) (skipIdx c 0), m.entry (skipIdx r 1) (skipIdx c 1)⟩

/-- `Mat3x3::minor` (matrix.rs, `impl_determinant!`). -/
def Mat3x3.minor (m : Mat3x3) (r c : Nat) : ℚ := (m.submatrix r c).determinant

/-- `Mat3x3::cofactor` (matrix.rs, `impl_determinant!`). -/
def Mat3x3.cofactor (m : Mat3x3) (r c : Nat) : ℚ :=
  if (r + c) % 2 = 0 then m.minor r c else -(m.minor r c)

/-- `Mat3x3::determinant` (matrix.rs): cofactor expansion along the first row. -/
def Mat3x3.determinant (m : Mat3x3) : ℚ :=
  m.f00 * m.cofactor 0 0 + m.f01 * m.cofactor 0 1 + m.f02 * m.cofactor 0 2

/-- `Mat4x4::submatrix` (matrix.rs, `impl_sub_matrix!(Mat4x4, Mat3x3)`). -/
def Mat4x4.submatrix (m : Mat4x4) (r c : Nat) : Mat3x3 :=
  ⟨m.entry (skipIdx r 0) (skipIdx c 0), m.entry (skipIdx r 0) (skipIdx c 1),
   m.entry (skipIdx r 0) (skipIdx c 2),
   m.entry (skipIdx r 1) (skipIdx c 0), m.entry (skipIdx r 1) (skipIdx c 1),
   m.entry (skipIdx r 1) (skipIdx c 2),
   m.entry (skipIdx r 2) (skipIdx c 0), m.entry (skipIdx r 2) (skipIdx c 1),
   m.entry (skipIdx r 2) (skipIdx c 2)⟩

/-- `Mat4x4::minor` (matrix.rs, `impl_determinant!`). -/
def Mat4x4.minor (m : Mat4x4) (r c : Nat) : ℚ := (m.submatrix r c).determinant

/-- `Mat4x4::cofactor` (matrix.rs, `impl_determinant!`). -/
def Mat4x4.cofactor (m : Mat4x4) (r c : Nat) : ℚ :=
  if (r + c) % 2 = 0 then m.minor r c else -(m.minor r c)

/-- `Mat4x4::determinant` (matrix.rs): cofactor expansion along the first row. -/
def Mat4x4.determinant (m : Mat4x4) : ℚ :=
  m.m00 * m.cofactor 0 0 + m.m01 * m.cofactor 0 1 + m.m02 * m.cofactor 0 2 +
    m.m03 * m.cofactor 0 3

/-- `Mat4x4::identity` (matrix.rs). -/
def Mat4x4.identity : Mat4x4 :=
  ⟨1, 0, 0, 0, 0, 1, 0, 0, 0, 0, 1, 0, 0, 0, 0, 1⟩

/-- `Mat4x4::zero` (matrix.rs). -/
def Mat4x4.zero : Mat4x4 :=
  ⟨0, 0, 0, 0, 0, 0, 0, 0, 0, 0, 0, 0, 0, 0, 0, 0⟩

/-- `Mat4x4::transpose` (matrix.rs). -/
def Mat4x4.transpose (m : Mat4x4) : Mat4x4 :=
  ⟨m.m00, m.m10, m.m20, m.m30,
   m.m01, m.m11, m.m21, m.m31,
   m.m02, m.m12, m.m22, m.m32,
   m.m03, m.m13, m.m23, m.m33⟩

/-- `impl Mul for Mat4x4` (matrix.rs): row-by-column products. -/
def mul4 (a b : Mat4x4) : Mat4x4 :=
  ⟨a.m00 * b.m00 + a.m01 * b.m10 + a.m02 * b.m20 + a.m03 * b.m30,
   a.m00 * b.m01 + a.m01 * b.m11 + a.m02 * b.m21 + a.m03 * b.m31,
   a.m00 * b.m02 + a.m01 * b.m12 + a.m02 * b.m22 + a.m03 * b.m32,
   a.m00 * b.m03 + a.m01 * b.m13 + a.m02 * b.m23 + a.m03 * b.m33,
   a.m10 * b.m00 + a.m11 * b.m10 + a.m12 * b.m20 + a.m13 * b.m30,
   a.m10 * b.m01 + a.m11 * b.m11 + a.m12 * b.m21 + a.m13 * b.m31,
   a.m10 * b.m02 + a.m11 * b.m12 + a.m12 * b.m22 + a.m13 * b.m32,
   a.m10 * b.m03 + a.m11 * b.m13 + a.m12 * b.m23 + a.m13 * b.m33,
   a.m20 * b.m00 + a.m21 * b.m10 + a.m22 * b.m20 + a.m23 * b.m30,
   a.m20 * b.m01 + a.m21 * b.m11 + a.m22 * b.m21 + a.m23 * b.m31,
   a.m20 * b.m02 + a.m21 * b.m12 + a.m22 * b.m22 + a.m23 * b.m32,
   a.m20 * b.m03 + a.m21 * b.m13 + a.m22 * b.m23 + a.m23 * b.m33,
   a.m30 * b.m00 + a.m31 * b.m10 + a.m32 * b.m20 + a.m33 * b.m30,
   a.m30 * b.m01 + a.m31 * b.m11 + a.m32 * b.m21 + a.m33 * b.m31,
   a.m30 * b.m02 + a.m31 * b.m12 + a.m32 * b.m22 + a.m33 * b.m32,
   a.m30 * b.m03 + a.m31 * b.m13 + a.m32 * b.m23 + a.m33 * b.m33⟩

/-- `impl Mul<Tuple> for Mat4x4` (matrix.rs/tuple.rs): rows dotted with the tuple. -/
def mulMT (m : Mat4x4) (t : Tuple) : Tuple :=
  ⟨m.m00 * t.x + m.m01 * t.y + m.m02 * t.z + m.m03 * t.w,
   m.m10 * t.x + m.m11 * t.y + m.m12 * t.z + m.m13 * t.w,
   m.m20 * t.x + m.m21 * t.y + m.m22 * t.z + m.m23 * t.w,
   m.m30 * t.x + m.m31 * t.y + m.m32 * t.z + m.m33 * t.w⟩

/-- `Mat4x4::invertible` (matrix.rs): `determinant().abs() > f64::EPSILON`. -/
def Mat4x4.invertible (m : Mat4x4) : Prop := f64Epsilon < |m.determinant|

instance (m : Mat4x4) : Decidable m.invertible := by
  unfold Mat4x4.invertible
  infer_instance

/-- `Mat4x4::inverse` (matrix.rs): transposed cofactors over the determinant,
or the error `"Matrix is not invertible"`; `res[c][r] = cofactor(r, c) / det`
means entry `(i, j)` of the result is `cofactor(j, i) / det`. -/
def Mat4x4.inverse (m : Mat4x4) : Except String Mat4x4 :=
  if m.invertible then
    let det := m.determinant
    Except.ok
      ⟨m.cofactor 0 0 / det, m.cofactor 1 0 / det, m.cofactor 2 0 / det, m.cofactor 3 0 / det,
       m.cofactor 0 1 / det, m.cofactor 1 1 / det, m.cofactor 2 1 / det, m.cofactor 3 1 / det,
       m.cofactor 0 2 / det, m.cofactor 1 2 / det, m.cofactor 2 2 / det, m.cofactor 3 2 / det,
       m.cofactor 0 3 / det, m.cofactor 1 3 / det, m.cofactor 2 3 / det, m.cofactor 3 3 / det⟩
  else
    Except.error "Matrix is not invertible"

/-- `inverse().unwrap()` at call sites whose panic no claim is about
(shape/pattern transform inverses): the error case falls back to the zero
matrix instead of aborting. -/
def Mat4x4.inverseD (m : Mat4x4) : Mat4x4 :=
  match m.inverse with
  | Except.ok r => r
  | Except.error _ => Mat4x4.zero

/-- `transform::translate` (transform.rs). -/
def translateM (x y z : ℚ) : Mat4x4 :=
  ⟨1, 0, 0, x, 0, 1, 0, y, 0, 0, 1, z, 0, 0, 0, 1⟩

/-- `transform::scale` (transform.rs). -/
def scaleM (x y z : ℚ) : Mat4x4 :=
  ⟨x, 0, 0, 0, 0, y, 0, 0, 0, 0, z, 0, 0, 0, 0, 1⟩

/-- `Ray` (ray.rs). -/
structure Ray where
  origin : Tuple
  direction : Tuple
deriving DecidableEq, Repr

/-- `Ray::position` (ray.rs): `origin + direction * t`. -/
def Ray.position (r : Ray) (t : ℚ) : Tuple := addT r.origin (smulT r.direction t)

/-- `impl Mul<Ray> for Mat4x4` (ray.rs). -/
def mulMR (m : Mat4x4) (r : Ray) : Ray := ⟨mulMT m r.origin, mulMT m r.direction⟩

/-- `Pattern` (patterns.rs): closed enum over the four pattern kinds, each
carrying the two colors and its own transform. -/
inductive Pattern where
  | stripe (a b : Color) (transform : Mat4x4)
  | gradient (a b : Color) (transform : Mat4x4)
  | ring (a b : Color) (transform : Mat4x4)
  | checker (a b : Color) (transform : Mat4x4)
deriving DecidableEq, Repr

/-- The `transform` field of whichever pattern variant is present (patterns.rs). -/
def Pattern.transformOf : Pattern → Mat4x4
  | .stripe _ _ t => t
  | .gradient _ _ t => t
  | .ring _ _ t => t
  | .checker _ _ t => t

/-- `Material` (materials.rs). -/
structure Material where
  color : Color
  ambient : ℚ
  diffuse : ℚ
  specular : ℚ
  shininess : ℚ
  reflective : ℚ
  transparency : ℚ
  refractiveIndex : ℚ
  pattern : Option Pattern
deriving DecidableEq, Repr

/-- `Material::new` (materials.rs). -/
def Material.new : Material :=
  ⟨Color.white, 1/10, 9/10, 9/10, 200, 0, 0, 1, none⟩

/-- `PointLight` (lights.rs). -/
structure PointLight where
  intensity : Color
  position : Tuple
deriving DecidableEq, Repr

/-- `ShapeType` (shape.rs): the snapshot under `src/` only provides spheres. -/
inductive ShapeType where
  | sphere
deriving DecidableEq, Repr

/-- The `Shape` value used by world.rs (a tagged kind plus its
object-to-world transform and material).  The struct itself is not in this
snapshot's shape.rs; its shape is fixed by its uses in world.rs and by the
design in the spec, and its geometry methods below are the sphere code from
sphere.rs / shape.rs (`ShapeIntersectionHandler`, `SurfaceNormalCalculator`). -/
structure Shape where
  shapeType : ShapeType
  transform : Mat4x4
  material : Material
deriving DecidableEq, Repr

/-- `Shape::new` (default transform and material, per shape.rs
`create_shape` and sphere.rs `Sphere::new`). -/
def Shape.new (ty : ShapeType) : Shape := ⟨ty, Mat4x4.identity, Material.new⟩

/-- Modelled from the spec: `glass_sphere()` (referenced by the tests but not
present in this snapshot) — "A 'glass' material preset (transparency=1,
refractive index=1.5)" applied to a unit sphere. -/
def glassSphere : Shape :=
  ⟨ShapeType.sphere, Mat4x4.identity, { Material.new with transparency := 1, refractiveIndex := 3/2 }⟩

/-- `Intersection` (intersections.rs): parameter `t` plus the shape hit. -/
structure Intersection where
  t : ℚ
  shape : Shape
deriving DecidableEq, Repr

/-- The epsilon-tolerant `PartialEq` of `Mat4x4` (matrix.rs): all entries
within `0.0000000001`. -/
def mat4ApproxEq (a b : Mat4x4) : Bool :=
  decide (|a.m00 - b.m00| ≤ matCmpEps) && decide (|a.m01 - b.m01| ≤ matCmpEps) &&
  decide (|a.m02 - b.m02| ≤ matCmpEps) && decide (|a.m03 - b.m03| ≤ matCmpEps) &&
  decide (|a.m10 - b.m10| ≤ matCmpEps) && decide (|a.m11 - b.m11| ≤ matCmpEps) &&
  decide (|a.m12 - b.m12| ≤ matCmpEps) && decide (|a.m13 - b.m13| ≤ matCmpEps) &&
  decide (|a.m20 - b.m20| ≤ matCmpEps) && decide (|a.m21 - b.m21| ≤ matCmpEps) &&
  decide (|a.m22 - b.m22| ≤ matCmpEps) && decide (|a.m23 - b.m23| ≤ matCmpEps) &&
  decide (|a.m30 - b.m30| ≤ matCmpEps) && decide (|a.m31 - b.m31| ≤ matCmpEps) &&
  decide (|a.m32 - b.m32| ≤ matCmpEps) && decide (|a.m33 - b.m33| ≤ matCmpEps)

/-- Derived `PartialEq` of `Pattern` (patterns.rs): same variant, equal colors,
matrix compared with the epsilon-tolerant matrix equality. -/
def patternEq : Pattern → Pattern → Bool
  | .stripe a b t, .stripe a' b' t' => decide (a = a') && decide (b = b') && mat4ApproxEq t t'
  | .gradient a b t, .gradient a' b' t' => decide (a = a') && decide (b = b') && mat4ApproxEq t t'
  | .ring a b t, .ring a' b' t' => decide (a = a') && decide (b = b') && mat4ApproxEq t t'
  | .checker a b t, .checker a' b' t' => decide (a = a') && decide (b = b') && mat4ApproxEq t t'
  | _, _ => false

/-- Derived `PartialEq` of `Material` (materials.rs): fieldwise, with the
pattern transform inheriting the matrix tolerance. -/
def materialEq (m n : Material) : Bool :=
  decide (m.color = n.color) && decide (m.ambient = n.ambient) &&
  decide (m.diffuse = n.diffuse) && decide (m.specular = n.specular) &&
  decide (m.shininess = n.shininess) && decide (m.reflective = n.reflective) &&
  decide (m.transparency = n.transparency) && decide (m.refractiveIndex = n.refractiveIndex) &&
  (match m.pattern, n.pattern with
   | none, none => true
   | some p, some q => patternEq p q
   | _, _ => false)

/-- Derived `PartialEq` of `Shape`: fieldwise (matrix with tolerance). -/
def shapeEq (s u : Shape) : Bool :=
  decide (s.shapeType = u.shapeType) && mat4ApproxEq s.transform u.transform &&
    materialEq s.material u.material

/-- Derived `PartialEq` of `Intersection` (intersections.rs): equal `t` and
equal (dereferenced) shape. -/
def interEq (i j : Intersection) : Bool := decide (i.t = j.t) && shapeEq i.shape j.shape

/-- The filter `i.t >= 0.0` inside `hit` (intersections.rs). -/
def filterNonNeg : List Intersection → List Intersection
  | [] => []
  | i :: rest => if 0 ≤ i.t then i :: filterNonNeg rest else filterNonNeg rest

/-- The fold underlying `Iterator::min_by` (keep the accumulator unless it
compares strictly greater, so the first minimal element wins). -/
def minByTGo (acc : Intersection) : List Intersection → Intersection
  | [] => acc
  | i :: rest => minByTGo (if i.t < acc.t then i else acc) rest

/-- `hit(intersections)` (intersections.rs): minimum-`t` element among the
intersections with nonnegative `t`. -/
def hitI (xs : List Intersection) : Option Intersection :=
  match filterNonNeg xs with
  | [] => none
  | i :: rest => some (minByTGo i rest)

/-- `Sphere::intersect` (sphere.rs) / `ShapeIntersectionHandler::intersect`
(shape.rs): quadratic from substituting the inverse-transformed ray into the
unit-sphere equation. -/
def Shape.intersect (s : Shape) (ray : Ray) : List Intersection :=
  let ray2 := mulMR s.transform.inverseD ray
  let sphereToRay := subT ray2.origin (pointT 0 0 0)
  let a := dotT ray2.direction ray2.direction
  let b := 2 * dotT ray2.direction sphereToRay
  let c := dotT sphereToRay sphereToRay - 1
  let discriminant := b * b - 4 * a * c
  if discriminant < 0 then []
  else
    [⟨(-b - ratSqrt discriminant) / (2 * a), s⟩,
     ⟨(-b + ratSqrt discriminant) / (2 * a), s⟩]

/-- `Sphere::normal` (sphere.rs) / `SurfaceNormalCalculator` (shape.rs):
inverse-transform the point, take the local sphere normal, push it back with
the inverse transpose, zero `w`, normalize. -/
def Shape.normal (s : Shape) (wp : Tuple) : Tuple :=
  let tinv := s.transform.inverseD
  let objN := subT (mulMT tinv wp) (pointT 0 0 0)
  let wn := mulMT tinv.transpose objN
  normalizeT ⟨wn.x, wn.y, wn.z, 0⟩

/-- `Comps` (world.rs). -/
structure Comps where
  t : ℚ
  shape : Shape
  point : Tuple
  overPoint : Tuple
  underPoint : Tuple
  eyev : Tuple
  normalv : Tuple
  reflectv : Tuple
  inside : Prop
  n1 : ℚ
  n2 : ℚ

/-- `World::prepare_computations` (world.rs).  Note the source computes
`over_point`/`under_point` from the normal BEFORE the inside flip. -/
def prepareComputations (intersection : Intersection) (ray : Ray) : Comps :=
  let t := intersection.t
  let shape := intersection.shape
  let point := ray.position intersection.t
  let eyev := negT ray.direction
  let normalv0 := shape.normal point
  let overPoint := addT point (smulT normalv0 overPointEps)
  let underPoint := subT point (smulT normalv0 overPointEps)
  let inside := dotT normalv0 eyev < 0
  let normalv := if dotT normalv0 eyev < 0 then negT normalv0 else normalv0
  let reflectv := reflectT ray.direction normalv
  ⟨t, shape, point, overPoint, underPoint, eyev, normalv, reflectv, inside, 0, 0⟩

/-- `containers.last()`-based refractive index: 1.0 (vacuum) for an empty
stack, else the top (last-pushed) shape's index (world.rs). -/
def refrTop (containers : List Shape) : ℚ :=
  match containers.getLast? with
  | none => 1
  | some s => s.material.refractiveIndex

/-- `containers.iter().position(|&s| s == *i.shape)` (world.rs). -/
def findShapeIdx : List Shape → Shape → Option Nat
  | [], _ => none
  | c :: rest, s => if shapeEq c s then some 0 else (findShapeIdx rest s).map (· + 1)

/-- One membership toggle of the container stack (world.rs): remove the shape
if present, else push it. -/
def toggleContainers (containers : List Shape) (s : Shape) : List Shape :=
  match findShapeIdx containers s with
  | some idx => containers.eraseIdx idx
  | none => containers ++ [s]

/-- The `for i in intersections` loop of
`prepare_computations_with_intersections` (world.rs), carrying the container
stack and the `n1`/`n2` accumulators. -/
def n1n2Go (target : Intersection) : List Intersection → List Shape → ℚ × ℚ → ℚ × ℚ
  | [], _, acc => acc
  | i :: rest, containers, acc =>
    let n1' := if interEq i target then refrTop containers else acc.1
    let containers' := toggleContainers containers i.shape
    let n2' := if interEq i target then refrTop containers' else acc.2
    n1n2Go target rest containers' (n1', n2')

/-- `World::prepare_computations_with_intersections` (world.rs). -/
def prepareComputationsWithIntersections (intersection : Intersection) (ray : Ray)
    (intersections : List Intersection) : Comps :=
  let nn := n1n2Go intersection intersections [] (1, 1)
  { prepareComputations intersection ray with n1 := nn.1, n2 := nn.2 }

/-- Model of `f64::powf` on ℚ: exponentiation by the floor of the exponent.
It is only reached with a positive base and the integral material shininess
(200.0 by default), where the floor is exact. -/
def powfQ (base expo : ℚ) : ℚ := base ^ (⌊expo⌋).toNat

/-- `StripedPattern::color_at` / `GradientPattern::color_at` /
`RingPattern::color_at` / `CheckerPattern::color_at` (patterns.rs); the f64
remainder `% 2.` on the integral floors is `Int.tmod` (sign of the dividend). -/
def patternColorAt : Pattern → Tuple → Color
  | .stripe a b _, p => if Int.tmod ⌊p.x⌋ 2 = 0 then a else b
  | .gradient a b _, p =>
      addC a (smulC ⟨b.r - a.r, b.g - a.g, b.b - a.b⟩ (p.x - (⌊p.x⌋ : ℚ)))
  | .ring a b _, p =>
      if Int.tmod ⌊ratSqrt (p.x * p.x + p.z * p.z)⌋ 2 = 0 then a else b
  | .checker a b _, p => if Int.tmod (⌊p.x⌋ + ⌊p.y⌋ + ⌊p.z⌋) 2 = 0 then a else b

/-- `PatternTrait::color_at_object` (patterns.rs): world point → object space →
pattern space via the two inverse transforms. -/
def patternColorAtObject (pat : Pattern) (shape : Shape) (worldPoint : Tuple) : Color :=
  let objectPoint := mulMT shape.transform.inverseD worldPoint
  let patternPoint := mulMT pat.transformOf.inverseD objectPoint
  patternColorAt pat patternPoint

/-- `Material::lighting` (materials.rs): Phong ambient + diffuse + specular. -/
def lighting (material : Material) (object : Shape) (light : PointLight)
    (point eyev normalv : Tuple) (inShadow : Bool) : Color :=
  let color :=
    match material.pattern with
    | some pat => patternColorAtObject pat object point
    | none => material.color
  let effectiveColor := mulC color light.intensity
  let lightv := normalizeT (subT light.position point)
  let ambient := smulC effectiveColor material.ambient
  let ds :=
    if inShadow then (Color.black, Color.black)
    else
      let lightDotNormal := dotT lightv normalv
      if 0 ≤ lightDotNormal then
        let diffuse := smulC (smulC effectiveColor material.diffuse) lightDotNormal
        let reflectv := reflectT (negT lightv) normalv
        let reflectDotEye := dotT reflectv eyev
        if 0 < reflectDotEye then
          (diffuse, smulC (smulC light.intensity material.specular) (powfQ reflectDotEye material.shininess))
        else (diffuse, Color.black)
      else (Color.black, Color.black)
  addC (addC ambient ds.1) ds.2

/-- `World` (world.rs): one point light plus the shape list. -/
structure World where
  light : PointLight
  shapes : List Shape

/-- Ascending insertion by `t`, stand-in for
`xs.sort_by(|x, y| x.t.partial_cmp(&y.t).unwrap())` in `World::intersect`
(world.rs); ties keep an unspecified order, which the spec leaves
implementation-defined. -/
def insertByT (i : Intersection) : List Intersection → List Intersection
  | [] => [i]
  | j :: rest => if j.t ≤ i.t then j :: insertByT i rest else i :: j :: rest

/-- Sort by ascending `t` (see `insertByT`). -/
def sortByT : List Intersection → List Intersection
  | [] => []
  | i :: rest => insertByT i (sortByT rest)

/-- `World::intersect` (world.rs): every shape's intersections, sorted by `t`. -/
def worldIntersect (w : World) (ray : Ray) : List Intersection :=
  sortByT ((w.shapes.map (fun s => s.intersect ray)).flatten)

/-- `World::is_shadowed` (world.rs). -/
def isShadowed (w : World) (p : Tuple) : Bool :=
  let direction := subT w.light.position p
  let distance := magnitudeT direction
  let ray : Ray := ⟨p, normalizeT direction⟩
  match hitI (worldIntersect w ray) with
  | some i => decide (i.t < distance)
  | none => false

/-- `World::schlick` (world.rs): Schlick reflectance approximation. -/
def schlick (comps : Comps) : ℚ :=
  let cos0 := dotT comps.eyev comps.normalv
  if comps.n2 < comps.n1 then
    let n := comps.n1 / comps.n2
    let sin2T := n * n * (1 - cos0 * cos0)
    if 1 < sin2T then 1
    else
      let cosT := ratSqrt (1 - sin2T)
      let r0 := ((comps.n1 - comps.n2) / (comps.n1 + comps.n2)) ^ 2
      r0 + (1 - r0) * (1 - cosT) ^ 5
  else
    let r0 := ((comps.n1 - comps.n2) / (comps.n1 + comps.n2)) ^ 2
    r0 + (1 - r0) * (1 - cos0) ^ 5

/-- `World::reflected_color` (world.rs), with the recursive `color_at` call
abstracted as `recurse` (invoked at budget `remaining - 1`). -/
def reflectedColorW (recurse : Ray → Color) (comps : Comps) (remaining : Nat) : Color :=
  if 0 < remaining ∧ 0 < comps.shape.material.reflective then
    smulC (recurse ⟨comps.overPoint, comps.reflectv⟩) comps.shape.material.reflective
  else Color.black

/-- `World::refracted_color` (world.rs), recursive call abstracted as in
`reflectedColorW`. -/
def refractedColorW (recurse : Ray → Color) (comps : Comps) (remaining : Nat) : Color :=
  if remaining = 0 ∨ comps.shape.material.transparency = 0 then Color.black
  else
    let nRatio := comps.n1 / comps.n2
    let cosI := dotT comps.eyev comps.normalv
    let sin2T := nRatio ^ 2 * (1 - cosI ^ 2)
    if 1 < sin2T then Color.black
    else
      let cosT := ratSqrt (1 - sin2T)
      let direction := subT (smulT comps.normalv (nRatio * cosI - cosT)) (smulT comps.eyev nRatio)
      smulC (recurse ⟨comps.underPoint, direction⟩) comps.shape.material.transparency

/-- `World::shade_hit` (world.rs). -/
def shadeHitW (recurse : Ray → Color) (w : World) (comps : Comps) (remaining : Nat) : Color :=
  let shadowed := isShadowed w comps.overPoint
  let surface :=
    lighting comps.shape.material comps.shape w.light comps.overPoint comps.eyev comps.normalv shadowed
  let reflected := reflectedColorW recurse comps remaining
  let refracted := refractedColorW recurse comps remaining
  let material := comps.shape.material
  if 0 < material.reflective ∧ 0 < material.transparency then
    let reflectance := schlick comps
    addC (addC surface (smulC reflected reflectance)) (smulC refracted (1 - reflectance))
  else addC (addC surface reflected) refracted

/-- Body of `World::color_at` (world.rs). -/
def colorAtBody (w : World) (recurse : Ray → Color) (remaining : Nat) (ray : Ray) : Color :=
  let intersections := worldIntersect w ray
  match hitI intersections with
  | some i => shadeHitW recurse w (prepareComputationsWithIntersections i ray intersections) remaining
  | none => Color.black

/-- `World::color_at` (world.rs): recursion on the `remaining` budget; every
recursive bounce runs at `remaining - 1` (at budget 0 the continuation is
unreachable, both bounce guards having already returned black). -/
def colorAt (w : World) : Nat → Ray → Color
  | 0, ray => colorAtBody w (fun _ => Color.black) 0 ray
  | n + 1, ray => colorAtBody w (colorAt w n) (n + 1) ray

/-- Gas-instrumented `reflected_color`: `none` models a computation that runs
out of gas before completing. -/
def reflectedColorGas (recurse : Ray → Option Color) (comps : Comps) (remaining : Nat) :
    Option Color :=
  if 0 < remaining ∧ 0 < comps.shape.material.reflective then
    (recurse ⟨comps.overPoint, comps.reflectv⟩).map (fun c => smulC c comps.shape.material.reflective)
  else some Color.black

/-- Gas-instrumented `refracted_color`. -/
def refractedColorGas (recurse : Ray → Option Color) (comps : Comps) (remaining : Nat) :
    Option Color :=
  if remaining = 0 ∨ comps.shape.material.transparency = 0 then some Color.black
  else
    let nRatio := comps.n1 / comps.n2
    let cosI := dotT comps.eyev comps.normalv
    let sin2T := nRatio ^ 2 * (1 - cosI ^ 2)
    if 1 < sin2T then some Color.black
    else
      let cosT := ratSqrt (1 - sin2T)
      let direction := subT (smulT comps.normalv (nRatio * cosI - cosT)) (smulT comps.eyev nRatio)
      (recurse ⟨comps.underPoint, direction⟩).map (fun c => smulC c comps.shape.material.transparency)

/-- Gas-instrumented `shade_hit`. -/
def shadeHitGas (recurse : Ray → Option Color) (w : World) (comps : Comps) (remaining : Nat) :
    Option Color :=
  (reflectedColorGas recurse comps remaining).bind fun reflected =>
    (refractedColorGas recurse comps remaining).bind fun refracted =>
      let shadowed := isShadowed w comps.overPoint
      let surface :=
        lighting comps.shape.material comps.shape w.light comps.overPoint comps.eyev comps.normalv
          shadowed
      let material := comps.shape.material
      some
        (if 0 < material.reflective ∧ 0 < material.transparency then
          let reflectance := schlick comps
          addC (addC surface (smulC reflected reflectance)) (smulC refracted (1 - reflectance))
        else addC (addC surface reflected) refracted)

/-- Gas-instrumented `color_at`: the first argument is the gas (available call
depth), the second the source's `remaining` budget; recursive bounces spend
one unit of gas and run at `remaining - 1`, exactly like the source. -/
def colorAtGas (w : World) : Nat → Nat → Ray → Option Color
  | 0, _, _ => none
  | gas + 1, remaining, ray =>
    let intersections := worldIntersect w ray
    match hitI intersections with
    | some i =>
        shadeHitGas (fun r => colorAtGas w gas (remaining - 1) r) w
          (prepareComputationsWithIntersections i ray intersections) remaining
    | none => some Color.black

/-- `Camera` (camera.rs); `hsize`/`vsize` are the pixel counts, the remaining
fields the precomputed projection data. -/
structure Camera where
  hsize : Nat
  vsize : Nat
  fieldOfView : ℚ
  transform : Mat4x4
  pixelSize : ℚ
  halfWidth : ℚ
  halfHeight : ℚ

/-- `Camera::ray_for_pixel` (camera.rs); the `.expect` on a singular camera
transform is modelled by the defaulting inverse. -/
def rayForPixel (c : Camera) (px py : Nat) : Ray :=
  let xoffset := ((px : ℚ) + 1 / 2) * c.pixelSize
  let yoffset := ((py : ℚ) + 1 / 2) * c.pixelSize
  let worldX := c.halfWidth - xoffset
  let worldY := c.halfHeight - yoffset
  let inv := c.transform.inverseD
  let pixel := mulMT inv (pointT worldX worldY (-1))
  let origin := mulMT inv (pointT 0 0 0)
  let direction := normalizeT (subT pixel origin)
  ⟨origin, direction⟩

/-- The pixel coordinates `Camera::render` (camera.rs) writes: the loops run
`for y in 0..image.height() - 1` and `for x in 0..image.width() - 1`, where
the canvas is `hsize` wide and `vsize` high. -/
def renderCoords (width height : Nat) : List (Nat × Nat) :=
  ((List.range (height - 1)).map fun y => (List.range (width - 1)).map fun x => (x, y)).flatten

/-- `Camera::render` (camera.rs) as the list of `set_pixel` writes, in loop
order.  This camera.rs snapshot calls `world.color_at(ray)` without a budget
argument while the world.rs snapshot requires one; the spec's fixed initial
budget of 5 is supplied. -/
def render (cam : Camera) (w : World) : List ((Nat × Nat) × Color) :=
  ((List.range (cam.vsize - 1)).map fun y =>
    (List.range (cam.hsize - 1)).map fun x => ((x, y), colorAt w 5 (rayForPixel cam x y))).flatten

/-- An `f64` that is either a numeric value or NaN, for the panic analysis of
`hit`'s `partial_cmp(..).unwrap()` (intersections.rs) and `World::intersect`'s
sort comparator (world.rs). -/
abbrev Fl : Type := Option ℚ

/-- `f64::partial_cmp`: `none` (Rust `None`) exactly when either side is NaN. -/
def pcmpFl : Fl → Fl → Option Ordering
  | some a, some b => some (compare a b)
  | some _, none => none
  | none, some _ => none
  | none, none => none

/-- An intersection whose `t` may be NaN (the shape reference is irrelevant to
the panic analysis and kept as an id). -/
structure FInter where
  t : Fl
  shapeId : Nat

/-- The filter `i.t >= 0.0` under NaN semantics: any comparison with NaN is
false, so NaN-`t` intersections are dropped. -/
def filterNonNegFl : List FInter → List FInter
  | [] => []
  | i :: rest =>
    match i.t with
    | some q => if 0 ≤ q then i :: filterNonNegFl rest else filterNonNegFl rest
    | none => filterNonNegFl rest

/-- The `min_by` fold with the panicking comparator
`x.t.partial_cmp(&y.t).unwrap()`: outer `none` models the panic. -/
def minByFlGo (acc : FInter) : List FInter → Option FInter
  | [] => some acc
  | i :: rest =>
    match pcmpFl acc.t i.t with
    | none => none
    | some ord => minByFlGo (if ord = Ordering.gt then i else acc) rest

/-- `hit` under NaN semantics: outer `none` is a panic, the inner option is
the source's return value. -/
def hitFl (xs : List FInter) : Option (Option FInter) :=
  match filterNonNegFl xs with
  | [] => some none
  | i :: rest => (minByFlGo i rest).map some

/-- Insertion step of the `sort_by` comparator model: `none` models the panic
of `partial_cmp(..).unwrap()` on a NaN comparison. -/
def insertFl (i : FInter) : List FInter → Option (List FInter)
  | [] => some [i]
  | j :: rest =>
    match pcmpFl i.t j.t with
    | none => none
    | some ord =>
      if ord = Ordering.gt then (insertFl i rest).map (fun l => j :: l)
      else some (i :: j :: rest)

/-- Comparison-based sort model of `Vec::sort_by` with the panicking
comparator of `World::intersect` (world.rs). -/
def sortFl : List FInter → Option (List FInter)
  | [] => some []
  | i :: rest => (sortFl rest).bind (insertFl i)

theorem mem_of_mem_filterNonNeg {xs : List Intersection} {i : Intersection}
    (h : i ∈ filterNonNeg xs) : i ∈ xs ∧ 0 ≤ i.t := by
  induction xs with
  | nil => simp [filterNonNeg] at h
  | cons j rest ih =>
    by_cases hj : 0 ≤ j.t
    · simp only [filterNonNeg, if_pos hj, List.mem_cons] at h
      rcases h with h | h
      · exact ⟨by simp [h], h ▸ hj⟩
      · exact ⟨List.mem_cons_of_mem _ (ih h).1, (ih h).2⟩
    · simp only [filterNonNeg, if_neg hj] at h
      exact ⟨List.mem_cons_of_mem _ (ih h).1, (ih h).2⟩

theorem mem_filterNonNeg_of_mem {xs : List Intersection} {i : Intersection}
    (h : i ∈ xs) (ht : 0 ≤ i.t) : i ∈ filterNonNeg xs := by
  induction xs with
  | nil => simp at h
  | cons j rest ih =>
    rcases List.mem_cons.mp h with h | h
    · subst h
      simp [filterNonNeg, if_pos ht]
    · by_cases hj : 0 ≤ j.t
      · simp only [filterNonNeg, if_pos hj, List.mem_cons]
        exact Or.inr (ih h)
      · simpa [filterNonNeg, if_neg hj] using ih h

theorem filterNonNeg_eq_nil_iff {xs : List Intersection} :
    filterNonNeg xs = [] ↔ ∀ i ∈ xs, i.t < 0 := by
  induction xs with
  | nil => simp [filterNonNeg]
  | cons j rest ih =>
    by_cases hj : 0 ≤ j.t
    · simp only [filterNonNeg, if_pos hj]
      constructor
      · intro h
        exact absurd h (List.cons_ne_nil _ _)
      · intro h
        exact absurd (h j (List.mem_cons_self j rest)) (not_lt.mpr hj)
    · simp only [filterNonNeg, if_neg hj, ih, List.mem_cons]
      constructor
      · intro h i hi
        rcases hi with hi | hi
        · exact hi ▸ not_le.mp hj
        · exact h i hi
      · intro h i hi
        exact h i (Or.inr hi)

theorem minByTGo_mem (a : Intersection) (l : List Intersection) :
    minByTGo a l ∈ a :: l := by
  induction l generalizing a with
  | nil => simp [minByTGo]
  | cons i rest ih =>
    simp only [minByTGo]
    by_cases hc : i.t < a.t
    · rw [if_pos hc]
      rcases List.mem_cons.mp (ih i) with h | h
      · simp [h]
      · simp [List.mem_cons_of_mem _ (List.mem_cons_of_mem _ h)]
    · rw [if_neg hc]
      rcases List.mem_cons.mp (ih a) with h | h
      · simp [h]
      · simp [List.mem_cons_of_mem _ (List.mem_cons_of_mem _ h)]

theorem minByTGo_le (a : Intersection) (l : List Intersection) :
    (minByTGo a l).t ≤ a.t ∧ ∀ b ∈ l, (minByTGo a l).t ≤ b.t := by
  induction l generalizing a with
  | nil => simp [minByTGo]
  | cons i rest ih =>
    simp only [minByTGo]
    by_cases hc : i.t < a.t
    · rw [if_pos hc]
      rcases ih i with ⟨h1, h2⟩
      refine ⟨le_trans h1 (le_of_lt hc), ?_⟩
      intro b hb
      rcases List.mem_cons.mp hb with hb | hb
      · exact hb ▸ h1
      · exact h2 b hb
    · rw [if_neg hc]
      rcases ih a with ⟨h1, h2⟩
      refine ⟨h1, ?_⟩
      intro b hb
      rcases List.mem_cons.mp hb with hb | hb
      · exact hb ▸ le_trans h1 (not_lt.mp hc)
      · exact h2 b hb

theorem hitI_none_iff {xs : List Intersection} :
    hitI xs = none ↔ ∀ i ∈ xs, i.t < 0 := by
  rw [← filterNonNeg_eq_nil_iff]
  unfold hitI
  cases h : filterNonNeg xs with
  | nil => simp
  | cons i rest => simp

theorem hitI_some_min {xs : List Intersection} {i : Intersection} (h : hitI xs = some i) :
    i ∈ xs ∧ 0 ≤ i.t ∧ ∀ j ∈ xs, 0 ≤ j.t → i.t ≤ j.t := by
  unfold hitI at h
  cases hf : filterNonNeg xs with
  | nil => rw [hf] at h; simp at h
  | cons a rest =>
    rw [hf] at h
    simp only [Option.some.injEq] at h
    subst h
    have hmem : minByTGo a rest ∈ filterNonNeg xs := by
      rw [hf]
      exact minByTGo_mem a rest
    rcases mem_of_mem_filterNonNeg hmem with ⟨hx, ht⟩
    refine ⟨hx, ht, ?_⟩
    intro j hj hjt
    have hjf : j ∈ filterNonNeg xs := mem_filterNonNeg_of_mem hj hjt
    rw [hf] at hjf
    rcases List.mem_cons.mp hjf with hj1 | hj2
    · exact hj1 ▸ (minByTGo_le a rest).1
    · exact (minByTGo_le a rest).2 j hj2

/-- C1: for every list of intersections, `hit` returns an intersection with
the smallest nonnegative `t` (so the returned `t` does not depend on the
order of the list: permuting the input cannot change it), and returns `none`
exactly when the list is empty or every intersection has negative `t`. -/
theorem claim_C1_hit :
    (∀ xs : List Intersection, hitI xs = none ↔ ∀ i ∈ xs, i.t < 0) ∧
    (∀ (xs : List Intersection) (i : Intersection), hitI xs = some i →
      i ∈ xs ∧ 0 ≤ i.t ∧ ∀ j ∈ xs, 0 ≤ j.t → i.t ≤ j.t) ∧
    (∀ xs ys : List Intersection, xs.Perm ys →
      Option.map Intersection.t (hitI xs) = Option.map Intersection.t (hitI ys)) := by
  refine ⟨fun xs => hitI_none_iff, fun xs i h => hitI_some_min h, ?_⟩
  intro xs ys hp
  cases hx : hitI xs with
  | none =>
    cases hy : hitI ys with
    | none => rfl
    | some j =>
      rcases hitI_some_min hy with ⟨hj, hjt, _⟩
      have := hitI_none_iff.mp hx j (hp.mem_iff.mpr hj)
      exact absurd hjt (not_le.mpr this)
  | some i =>
    cases hy : hitI ys with
    | none =>
      rcases hitI_some_min hx with ⟨hi, hit, _⟩
      have := hitI_none_iff.mp hy i (hp.mem_iff.mp hi)
      exact absurd hit (not_le.mpr this)
    | some j =>
      rcases hitI_some_min hx with ⟨hi, hit, hmin⟩
      rcases hitI_some_min hy with ⟨hj, hjt, hjmin⟩
      have h1 : i.t ≤ j.t := hmin j (hp.mem_iff.mpr hj) hjt
      have h2 : j.t ≤ i.t := hjmin i (hp.mem_iff.mp hi) hit
      simp [le_antisymm h1 h2]

/-- The fixture of the repo's own
`hit_is_always_lowest_nonnegative_intersection` test. -/
def c1List : List Intersection :=
  [⟨5, Shape.new ShapeType.sphere⟩, ⟨7, Shape.new ShapeType.sphere⟩,
   ⟨-3, Shape.new ShapeType.sphere⟩, ⟨2, Shape.new ShapeType.sphere⟩]

/-- Witness for C1: the repo's own `hit_is_always_lowest_nonnegative_intersection`
fixture, evaluated concretely. -/
theorem claim_C1_hit_witness :
    hitI c1List = some ⟨2, Shape.new ShapeType.sphere⟩ ∧
    ((⟨2, Shape.new ShapeType.sphere⟩ : Intersection) ∈ c1List ∧
      0 ≤ (⟨2, Shape.new ShapeType.sphere⟩ : Intersection).t ∧
      ∀ j ∈ c1List, 0 ≤ j.t → (⟨2, Shape.new ShapeType.sphere⟩ : Intersection).t ≤ j.t) := by
  have h : hitI c1List = some ⟨2, Shape.new ShapeType.sphere⟩ := by
    norm_num [c1List, hitI, filterNonNeg, minByTGo]
  exact ⟨h, claim_C1_hit.2.1 _ _ h⟩

/-!
Closed forms of the sixteen 4×4 cofactors and of the determinant, each holding
by definitional unfolding of the source's submatrix/minor/cofactor recursion;
they let concrete determinants and the inverse identities evaluate cheaply.
-/

theorem Mat4x4.cofactor_c00 (m : Mat4x4) :
    m.cofactor 0 0 = m.m11 * (m.m22 * m.m33 - m.m23 * m.m32) + m.m12 * -(m.m21 * m.m33 - m.m23 * m.m31) + m.m13 * (m.m21 * m.m32 - m.m22 * m.m31) := by
  rfl

theorem Mat4x4.cofactor_c01 (m : Mat4x4) :
    m.cofactor 0 1 = -(m.m10 * (m.m22 * m.m33 - m.m23 * m.m32) + m.m12 * -(m.m20 * m.m33 - m.m23 * m.m30) + m.m13 * (m.m20 * m.m32 - m.m22 * m.m30)) := by
  rfl

theorem Mat4x4.cofactor_c02 (m : Mat4x4) :
    m.cofactor 0 2 = m.m10 * (m.m21 * m.m33 - m.m23 * m.m31) + m.m11 * -(m.m20 * m.m33 - m.m23 * m.m30) + m.m13 * (m.m20 * m.m31 - m.m21 * m.m30) := by
  rfl

theorem Mat4x4.cofactor_c03 (m : Mat4x4) :
    m.cofactor 0 3 = -(m.m10 * (m.m21 * m.m32 - m.m22 * m.m31) + m.m11 * -(m.m20 * m.m32 - m.m22 * m.m30) + m.m12 * (m.m20 * m.m31 - m.m21 * m.m30)) := by
  rfl

theorem Mat4x4.cofactor_c10 (m : Mat4x4) :
    m.cofactor 1 0 = -(m.m01 * (m.m22 * m.m33 - m.m23 * m.m32) + m.m02 * -(m.m21 * m.m33 - m.m23 * m.m31) + m.m03 * (m.m21 * m.m32 - m.m22 * m.m31)) := by
  rfl

theorem Mat4x4.cofactor_c11 (m : Mat4x4) :
    m.cofactor 1 1 = m.m00 * (m.m22 * m.m33 - m.m23 * m.m32) + m.m02 * -(m.m20 * m.m33 - m.m23 * m.m30) + m.m03 * (m.m20 * m.m32 - m.m22 * m.m30) := by
  rfl

theorem Mat4x4.cofactor_c12 (m : Mat4x4) :
    m.cofactor 1 2 = -(m.m00 * (m.m21 * m.m33 - m.m23 * m.m31) + m.m01 * -(m.m20 * m.m33 - m.m23 * m.m30) + m.m03 * (m.m20 * m.m31 - m.m21 * m.m30)) := by
  rfl

theorem Mat4x4.cofactor_c13 (m : Mat4x4) :
    m.cofactor 1 3 = m.m00 * (m.m21 * m.m32 - m.m22 * m.m31) + m.m01 * -(m.m20 * m.m32 - m.m22 * m.m30) + m.m02 * (m.m20 * m.m31 - m.m21 * m.m30) := by
  rfl

theorem Mat4x4.cofactor_c20 (m : Mat4x4) :
    m.cofactor 2 0 = m.m01 * (m.m12 * m.m33 - m.m13 * m.m32) + m.m02 * -(m.m11 * m.m33 - m.m13 * m.m31) + m.m03 * (m.m11 * m.m32 - m.m12 * m.m31) := by
  rfl

theorem Mat4x4.cofactor_c21 (m : Mat4x4) :
    m.cofactor 2 1 = -(m.m00 * (m.m12 * m.m33 - m.m13 * m.m32) + m.m02 * -(m.m10 * m.m33 - m.m13 * m.m30) + m.m03 * (m.m10 * m.m32 - m.m12 * m.m30)) := by
  rfl

theorem Mat4x4.cofactor_c22 (m : Mat4x4) :
    m.cofactor 2 2 = m.m00 * (m.m11 * m.m33 - m.m13 * m.m31) + m.m01 * -(m.m10 * m.m33 - m.m13 * m.m30) + m.m03 * (m.m10 * m.m31 - m.m11 * m.m30) := by
  rfl

theorem Mat4x4.cofactor_c23 (m : Mat4x4) :
    m.cofactor 2 3 = -(m.m00 * (m.m11 * m.m32 - m.m12 * m.m31) + m.m01 * -(m.m10 * m.m32 - m.m12 * m.m30) + m.m02 * (m.m10 * m.m31 - m.m11 * m.m30)) := by
  rfl

theorem Mat4x4.cofactor_c30 (m : Mat4x4) :
    m.cofactor 3 0 = -(m.m01 * (m.m12 * m.m23 - m.m13 * m.m22) + m.m02 * -(m.m11 * m.m23 - m.m13 * m.m21) + m.m03 * (m.m11 * m.m22 - m.m12 * m.m21)) := by
  rfl

theorem Mat4x4.cofactor_c31 (m : Mat4x4) :
    m.cofactor 3 1 = m.m00 * (m.m12 * m.m23 - m.m13 * m.m22) + m.m02 * -(m.m10 * m.m23 - m.m13 * m.m20) + m.m03 * (m.m10 * m.m22 - m.m12 * m.m20) := by
  rfl

theorem Mat4x4.cofactor_c32 (m : Mat4x4) :
    m.cofactor 3 2 = -(m.m00 * (m.m11 * m.m23 - m.m13 * m.m21) + m.m01 * -(m.m10 * m.m23 - m.m13 * m.m20) + m.m03 * (m.m10 * m.m21 - m.m11 * m.m20)) := by
  rfl

theorem Mat4x4.cofactor_c33 (m : Mat4x4) :
    m.cofactor 3 3 = m.m00 * (m.m11 * m.m22 - m.m12 * m.m21) + m.m01 * -(m.m10 * m.m22 - m.m12 * m.m20) + m.m02 * (m.m10 * m.m21 - m.m11 * m.m20) := by
  rfl

theorem Mat4x4.det_closed (m : Mat4x4) :
    m.determinant = m.m00 * m.cofactor 0 0 + m.m01 * m.cofactor 0 1 + m.m02 * m.cofactor 0 2 +
      m.m03 * m.cofactor 0 3 := rfl

/-- C6: `Mat4x4::inverse` returns the `Err` value — not a crash — exactly when
the absolute value of the determinant is ≤ machine epsilon, and an `Ok` matrix
otherwise. -/
theorem claim_C6_inverse_error :
    (∀ m : Mat4x4, m.inverse = Except.error "Matrix is not invertible" ↔
      |m.determinant| ≤ f64Epsilon) ∧
    (∀ m : Mat4x4, f64Epsilon < |m.determinant| → ∃ r, m.inverse = Except.ok r) := by
  constructor
  · intro m
    unfold Mat4x4.inverse
    by_cases h : m.invertible
    · rw [if_pos h]
      simp only [reduceCtorEq, false_iff, not_le]
      exact h
    · rw [if_neg h]
      simp only [true_iff]
      exact not_lt.mp h
  · intro m h
    have h' : m.invertible := h
    unfold Mat4x4.inverse
    rw [if_pos h']
    exact ⟨_, rfl⟩

/-- Witness for C6: the singular zero matrix errors, the identity inverts. -/
theorem claim_C6_inverse_error_witness :
    Mat4x4.zero.inverse = Except.error "Matrix is not invertible" ∧
    ∃ r, Mat4x4.identity.inverse = Except.ok r := by
  constructor
  · refine (claim_C6_inverse_error.1 Mat4x4.zero).mpr ?_
    norm_num [Mat4x4.zero, Mat4x4.det_closed, Mat4x4.cofactor_c00, Mat4x4.cofactor_c01,
      Mat4x4.cofactor_c02, Mat4x4.cofactor_c03, f64Epsilon]
  · refine claim_C6_inverse_error.2 Mat4x4.identity ?_
    norm_num [Mat4x4.identity, Mat4x4.det_closed, Mat4x4.cofactor_c00, Mat4x4.cofactor_c01,
      Mat4x4.cofactor_c02, Mat4x4.cofactor_c03, f64Epsilon]

/-- Entrywise approximation of two matrices within a tolerance. -/
def mat4Near (a b : Mat4x4) (tol : ℚ) : Prop :=
  |a.m00 - b.m00| ≤ tol ∧ |a.m01 - b.m01| ≤ tol ∧ |a.m02 - b.m02| ≤ tol ∧
  |a.m03 - b.m03| ≤ tol ∧ |a.m10 - b.m10| ≤ tol ∧ |a.m11 - b.m11| ≤ tol ∧
  |a.m12 - b.m12| ≤ tol ∧ |a.m13 - b.m13| ≤ tol ∧ |a.m20 - b.m20| ≤ tol ∧
  |a.m21 - b.m21| ≤ tol ∧ |a.m22 - b.m22| ≤ tol ∧ |a.m23 - b.m23| ≤ tol ∧
  |a.m30 - b.m30| ≤ tol ∧ |a.m31 - b.m31| ≤ tol ∧ |a.m32 - b.m32| ≤ tol ∧
  |a.m33 - b.m33| ≤ tol

theorem divCollect4 (a b c d e f g h dn : ℚ) :
    a * (b / dn) + c * (d / dn) + e * (f / dn) + g * (h / dn) =
      (a * b + c * d + e * f + g * h) / dn := by
  ring

theorem mul4_inverse_eq_identity {m r : Mat4x4} (h : m.inverse = Except.ok r) :
    mul4 m r = Mat4x4.identity := by
  unfold Mat4x4.inverse at h
  by_cases hinv : m.invertible
  · rw [if_pos hinv] at h
    have hd : m.determinant ≠ 0 := by
      refine abs_pos.mp ?_
      calc (0 : ℚ) < f64Epsilon := by norm_num [f64Epsilon]
        _ < |m.determinant| := hinv
    simp only [Except.ok.injEq] at h
    subst h
    simp only [mul4, Mat4x4.identity, Mat4x4.mk.injEq]
    refine ⟨?_, ?_, ?_, ?_, ?_, ?_, ?_, ?_, ?_, ?_, ?_, ?_, ?_, ?_, ?_, ?_⟩ <;>
      · rw [divCollect4, div_eq_iff hd, Mat4x4.det_closed]
        simp only [Mat4x4.cofactor_c00, Mat4x4.cofactor_c01, Mat4x4.cofactor_c02,
          Mat4x4.cofactor_c03, Mat4x4.cofactor_c10, Mat4x4.cofactor_c11, Mat4x4.cofactor_c12,
          Mat4x4.cofactor_c13, Mat4x4.cofactor_c20, Mat4x4.cofactor_c21, Mat4x4.cofactor_c22,
          Mat4x4.cofactor_c23, Mat4x4.cofactor_c30, Mat4x4.cofactor_c31, Mat4x4.cofactor_c32,
          Mat4x4.cofactor_c33, one_mul, zero_mul]
        try ring
  · rw [if_neg hinv] at h
    exact absurd h (by simp)

/-- C7: whenever `inverse` succeeds, `M × M⁻¹` is within `1e-5` of the
identity in every entry (in the exact-rational model it is exactly the
identity, which implies the claimed tolerance). -/
theorem claim_C7_mul_inverse :
    ∀ m r : Mat4x4, m.inverse = Except.ok r → mat4Near (mul4 m r) Mat4x4.identity (1 / 100000) := by
  intro m r h
  rw [mul4_inverse_eq_identity h]
  unfold mat4Near
  norm_num

theorem identity_inverse_ok : Mat4x4.identity.inverse = Except.ok Mat4x4.identity := by
  rw [Mat4x4.inverse, if_pos]
  · simp only [Except.ok.injEq]
    norm_num [Mat4x4.identity, Mat4x4.det_closed, Mat4x4.cofactor_c00, Mat4x4.cofactor_c01,
      Mat4x4.cofactor_c02, Mat4x4.cofactor_c03, Mat4x4.cofactor_c10, Mat4x4.cofactor_c11,
      Mat4x4.cofactor_c12, Mat4x4.cofactor_c13, Mat4x4.cofactor_c20, Mat4x4.cofactor_c21,
      Mat4x4.cofactor_c22, Mat4x4.cofactor_c23, Mat4x4.cofactor_c30, Mat4x4.cofactor_c31,
      Mat4x4.cofactor_c32, Mat4x4.cofactor_c33, Mat4x4.mk.injEq]
  · unfold Mat4x4.invertible
    norm_num [Mat4x4.identity, Mat4x4.det_closed, Mat4x4.cofactor_c00, Mat4x4.cofactor_c01,
      Mat4x4.cofactor_c02, Mat4x4.cofactor_c03, f64Epsilon]

theorem identity_inverseD : Mat4x4.identity.inverseD = Mat4x4.identity := by
  unfold Mat4x4.inverseD
  rw [identity_inverse_ok]

/-- Witness for C7: the identity matrix, inverted concretely. -/
theorem claim_C7_mul_inverse_witness :
    Mat4x4.identity.inverse = Except.ok Mat4x4.identity ∧
    mat4Near (mul4 Mat4x4.identity Mat4x4.identity) Mat4x4.identity (1 / 100000) :=
  ⟨identity_inverse_ok, claim_C7_mul_inverse _ _ identity_inverse_ok⟩

theorem natSqrt_one : natSqrt 1 = 1 := rfl

theorem natSqrt_four : natSqrt 4 = 2 := rfl

theorem ratSqrt_four : ratSqrt 4 = 2 := by
  rw [ratSqrt, if_neg (by norm_num)]
  norm_num [show Int.toNat 4 = 4 from rfl, show (4 : ℚ).den = 1 from rfl,
    natSqrt_four, natSqrt_one]

/-- The transformed ray `ray2` of the sphere-intersection routine. -/
def sphereRay2 (s : Shape) (ray : Ray) : Ray := mulMR s.transform.inverseD ray

/-- `sphere_to_ray` of the sphere-intersection routine. -/
def sphereSTR (s : Shape) (ray : Ray) : Tuple := subT (sphereRay2 s ray).origin (pointT 0 0 0)

/-- The quadratic coefficient `a` of the sphere-intersection routine. -/
def sphereA (s : Shape) (ray : Ray) : ℚ :=
  dotT (sphereRay2 s ray).direction (sphereRay2 s ray).direction

/-- The quadratic coefficient `b` of the sphere-intersection routine. -/
def sphereB (s : Shape) (ray : Ray) : ℚ :=
  2 * dotT (sphereRay2 s ray).direction (sphereSTR s ray)

/-- The quadratic coefficient `c` of the sphere-intersection routine. -/
def sphereC (s : Shape) (ray : Ray) : ℚ := dotT (sphereSTR s ray) (sphereSTR s ray) - 1

/-- The discriminant of the sphere-intersection routine. -/
def sphereDisc (s : Shape) (ray : Ray) : ℚ :=
  sphereB s ray * sphereB s ray - 4 * sphereA s ray * sphereC s ray

/-- C8: sphere intersection solves the quadratic of the object-space ray
against the unit sphere: negative discriminant gives no intersections,
otherwise exactly the roots `(-b ± √disc) / 2a`; a ray origin strictly inside
the sphere (`c < 0`, with a genuine direction `a > 0` and the square root
exact) gives one negative and one positive root; and the ray from (0,0,−5)
along +z meets the untransformed unit sphere at t = 4 and t = 6. -/
theorem claim_C8_sphere_intersect :
    (∀ (s : Shape) (ray : Ray), sphereDisc s ray < 0 → s.intersect ray = []) ∧
    (∀ (s : Shape) (ray : Ray), ¬sphereDisc s ray < 0 → s.intersect ray =
      [⟨(-sphereB s ray - ratSqrt (sphereDisc s ray)) / (2 * sphereA s ray), s⟩,
       ⟨(-sphereB s ray + ratSqrt (sphereDisc s ray)) / (2 * sphereA s ray), s⟩]) ∧
    (∀ (s : Shape) (ray : Ray), sphereC s ray < 0 → 0 < sphereA s ray →
      ratSqrt (sphereDisc s ray) * ratSqrt (sphereDisc s ray) = sphereDisc s ray →
      (-sphereB s ray - ratSqrt (sphereDisc s ray)) / (2 * sphereA s ray) < 0 ∧
      0 < (-sphereB s ray + ratSqrt (sphereDisc s ray)) / (2 * sphereA s ray)) ∧
    Shape.intersect (Shape.new ShapeType.sphere) ⟨pointT 0 0 (-5), vectorT 0 0 1⟩ =
      [⟨4, Shape.new ShapeType.sphere⟩, ⟨6, Shape.new ShapeType.sphere⟩] := by
  have hunfold : ∀ (s : Shape) (ray : Ray), s.intersect ray =
      if sphereDisc s ray < 0 then []
      else
        [⟨(-sphereB s ray - ratSqrt (sphereDisc s ray)) / (2 * sphereA s ray), s⟩,
         ⟨(-sphereB s ray + ratSqrt (sphereDisc s ray)) / (2 * sphereA s ray), s⟩] := by
    intro s ray
    rfl
  refine ⟨?_, ?_, ?_, ?_⟩
  · intro s ray h
    rw [hunfold, if_pos h]
  · intro s ray h
    rw [hunfold, if_neg h]
  · intro s ray hc ha hs
    have hb2 : sphereB s ray * sphereB s ray <
        ratSqrt (sphereDisc s ray) * ratSqrt (sphereDisc s ray) := by
      rw [hs]
      unfold sphereDisc
      nlinarith [mul_pos ha (neg_pos.mpr hc)]
    have hnn : 0 ≤ ratSqrt (sphereDisc s ray) := ratSqrt_nonneg _
    have h2a : 0 < 2 * sphereA s ray := by linarith
    constructor
    · apply div_neg_of_neg_of_pos _ h2a
      nlinarith
    · apply div_pos _ h2a
      nlinarith
  · rw [hunfold]
    have hd : sphereDisc (Shape.new ShapeType.sphere) ⟨pointT 0 0 (-5), vectorT 0 0 1⟩ = 4 := by
      simp only [sphereDisc, sphereA, sphereB, sphereC, sphereSTR, sphereRay2, Shape.new,
        identity_inverseD]
      norm_num [mulMR, mulMT, Mat4x4.identity, pointT, vectorT, subT, dotT]
    have ha : sphereA (Shape.new ShapeType.sphere) ⟨pointT 0 0 (-5), vectorT 0 0 1⟩ = 1 := by
      simp only [sphereA, sphereRay2, Shape.new, identity_inverseD]
      norm_num [mulMR, mulMT, Mat4x4.identity, pointT, vectorT, dotT]
    have hb : sphereB (Shape.new ShapeType.sphere) ⟨pointT 0 0 (-5), vectorT 0 0 1⟩ = -10 := by
      simp only [sphereB, sphereSTR, sphereRay2, Shape.new, identity_inverseD]
      norm_num [mulMR, mulMT, Mat4x4.identity, pointT, vectorT, subT, dotT]
    rw [hd, ha, hb, if_neg (by norm_num), ratSqrt_four]
    norm_num

/-- Witness for C8: the inside-origin ray of the repo's
`ray_originates_inside_sphere` test, with roots −1 and 1. -/
theorem claim_C8_sphere_intersect_witness :
    sphereC (Shape.new ShapeType.sphere) ⟨pointT 0 0 0, vectorT 0 0 1⟩ < 0 ∧
    0 < sphereA (Shape.new ShapeType.sphere) ⟨pointT 0 0 0, vectorT 0 0 1⟩ ∧
    ratSqrt (sphereDisc (Shape.new ShapeType.sphere) ⟨pointT 0 0 0, vectorT 0 0 1⟩) *
        ratSqrt (sphereDisc (Shape.new ShapeType.sphere) ⟨pointT 0 0 0, vectorT 0 0 1⟩) =
      sphereDisc (Shape.new ShapeType.sphere) ⟨pointT 0 0 0, vectorT 0 0 1⟩ ∧
    (-sphereB (Shape.new ShapeType.sphere) ⟨pointT 0 0 0, vectorT 0 0 1⟩ -
          ratSqrt (sphereDisc (Shape.new ShapeType.sphere) ⟨pointT 0 0 0, vectorT 0 0 1⟩)) /
        (2 * sphereA (Shape.new ShapeType.sphere) ⟨pointT 0 0 0, vectorT 0 0 1⟩) < 0 ∧
    0 < (-sphereB (Shape.new ShapeType.sphere) ⟨pointT 0 0 0, vectorT 0 0 1⟩ +
          ratSqrt (sphereDisc (Shape.new ShapeType.sphere) ⟨pointT 0 0 0, vectorT 0 0 1⟩)) /
        (2 * sphereA (Shape.new ShapeType.sphere) ⟨pointT 0 0 0, vectorT 0 0 1⟩) := by
  have hc : sphereC (Shape.new ShapeType.sphere) ⟨pointT 0 0 0, vectorT 0 0 1⟩ = -1 := by
    simp only [sphereC, sphereSTR, sphereRay2, Shape.new, identity_inverseD]
    norm_num [mulMR, mulMT, Mat4x4.identity, pointT, vectorT, subT, dotT]
  have ha : sphereA (Shape.new ShapeType.sphere) ⟨pointT 0 0 0, vectorT 0 0 1⟩ = 1 := by
    simp only [sphereA, sphereRay2, Shape.new, identity_inverseD]
    norm_num [mulMR, mulMT, Mat4x4.identity, pointT, vectorT, dotT]
  have hb : sphereB (Shape.new ShapeType.sphere) ⟨pointT 0 0 0, vectorT 0 0 1⟩ = 0 := by
    simp only [sphereB, sphereSTR, sphereRay2, Shape.new, identity_inverseD]
    norm_num [mulMR, mulMT, Mat4x4.identity, pointT, vectorT, subT, dotT]
  have hd : sphereDisc (Shape.new ShapeType.sphere) ⟨pointT 0 0 0, vectorT 0 0 1⟩ = 4 := by
    rw [sphereDisc, ha, hb, hc]
    norm_num
  have hsq : ratSqrt (sphereDisc (Shape.new ShapeType.sphere) ⟨pointT 0 0 0, vectorT 0 0 1⟩) *
      ratSqrt (sphereDisc (Shape.new ShapeType.sphere) ⟨pointT 0 0 0, vectorT 0 0 1⟩) =
      sphereDisc (Shape.new ShapeType.sphere) ⟨pointT 0 0 0, vectorT 0 0 1⟩ := by
    rw [hd, ratSqrt_four]
    norm_num
  have hcneg : sphereC (Shape.new ShapeType.sphere) ⟨pointT 0 0 0, vectorT 0 0 1⟩ < 0 := by
    rw [hc]; norm_num
  have hapos : 0 < sphereA (Shape.new ShapeType.sphere) ⟨pointT 0 0 0, vectorT 0 0 1⟩ := by
    rw [ha]; norm_num
  exact ⟨hcneg, hapos, hsq, claim_C8_sphere_intersect.2.2.1 _ _ hcneg hapos hsq⟩

theorem minByFlGo_isSome {acc : FInter} {l : List FInter} (hacc : acc.t ≠ none)
    (hl : ∀ i ∈ l, i.t ≠ none) : (minByFlGo acc l).isSome := by
  induction l generalizing acc with
  | nil => simp [minByFlGo]
  | cons i rest ih =>
    obtain ⟨a, ha⟩ := Option.ne_none_iff_exists'.mp hacc
    obtain ⟨b, hb⟩ := Option.ne_none_iff_exists'.mp (hl i (List.mem_cons_self i rest))
    simp only [minByFlGo, ha, hb, pcmpFl]
    refine ih ?_ (fun j hj => hl j (List.mem_cons_of_mem _ hj))
    by_cases hc : compare a b = Ordering.gt
    · simp [hc, hl i (List.mem_cons_self i rest)]
    · simp [hc, hacc]

theorem filterNonNegFl_no_nan (xs : List FInter) : ∀ i ∈ filterNonNegFl xs, i.t ≠ none := by
  induction xs with
  | nil => simp [filterNonNegFl]
  | cons j rest ih =>
    intro i hi
    cases hj : j.t with
    | none =>
      simp only [filterNonNegFl, hj] at hi
      exact ih i hi
    | some q =>
      by_cases hq : 0 ≤ q
      · simp only [filterNonNegFl, hj, if_pos hq] at hi
        rcases List.mem_cons.mp hi with h | h
        · subst h
          simp [hj]
        · exact ih i h
      · simp only [filterNonNegFl, hj, if_neg hq] at hi
        exact ih i hi

theorem hitFl_isSome (xs : List FInter) : (hitFl xs).isSome := by
  unfold hitFl
  cases hf : filterNonNegFl xs with
  | nil => simp
  | cons i rest =>
    have hno := filterNonNegFl_no_nan xs
    rw [hf] at hno
    have := minByFlGo_isSome (hno i (List.mem_cons_self i rest))
      (fun j hj => hno j (List.mem_cons_of_mem _ hj))
    obtain ⟨r, hr⟩ := Option.isSome_iff_exists.mp this
    simp [hr]

theorem insertFl_isSome {i : FInter} {l : List FInter} (hi : i.t ≠ none)
    (hl : ∀ j ∈ l, j.t ≠ none) :
    ∃ ys, insertFl i l = some ys ∧ ∀ j ∈ ys, j.t ≠ none := by
  induction l with
  | nil => exact ⟨[i], rfl, by simpa using hi⟩
  | cons j rest ih =>
    obtain ⟨a, ha⟩ := Option.ne_none_iff_exists'.mp hi
    obtain ⟨b, hb⟩ := Option.ne_none_iff_exists'.mp (hl j (List.mem_cons_self j rest))
    obtain ⟨ys, hys, hysn⟩ := ih (fun k hk => hl k (List.mem_cons_of_mem _ hk))
    by_cases hc : compare a b = Ordering.gt
    · refine ⟨j :: ys, ?_, ?_⟩
      · simp only [insertFl, ha, hb, pcmpFl, hys, if_pos hc, Option.map_some']
      · intro k hk
        rcases List.mem_cons.mp hk with h | h
        · exact h ▸ hl j (List.mem_cons_self j rest)
        · exact hysn k h
    · refine ⟨i :: j :: rest, ?_, ?_⟩
      · simp only [insertFl, ha, hb, pcmpFl, if_neg hc]
      · intro k hk
        rcases List.mem_cons.mp hk with h | h
        · exact h ▸ hi
        · exact hl k h

theorem sortFl_isSome {xs : List FInter} (h : ∀ i ∈ xs, i.t ≠ none) :
    ∃ ys, sortFl xs = some ys ∧ ∀ j ∈ ys, j.t ≠ none := by
  induction xs with
  | nil => exact ⟨[], rfl, by simp⟩
  | cons i rest ih =>
    obtain ⟨ys, hys, hysn⟩ := ih (fun k hk => h k (List.mem_cons_of_mem _ hk))
    obtain ⟨zs, hzs, hzsn⟩ := insertFl_isSome (h i (List.mem_cons_self i rest)) hysn
    exact ⟨zs, by simp [sortFl, hys, hzs], hzsn⟩

/-- C10: `hit` compares `t` values with `partial_cmp(..).unwrap()`, whose
failure branch panics; if no intersection in the list has a NaN `t`, neither
`hit` nor the ascending `sort_by` of `World::intersect` can hit that branch
(in this model, both computations return `some`, i.e. no panic).  (For `hit`
the `i.t >= 0.0` filter drops NaN entries before the comparator ever runs, so
its conclusion in fact holds without the precondition.) -/
theorem claim_C10_no_nan_no_panic :
    ∀ xs : List FInter, (∀ i ∈ xs, i.t ≠ none) →
      (hitFl xs).isSome ∧ (sortFl xs).isSome := by
  intro xs h
  refine ⟨hitFl_isSome xs, ?_⟩
  obtain ⟨ys, hys, _⟩ := sortFl_isSome h
  simp [hys]

/-- Witness for C10 on a concrete NaN-free list. -/
theorem claim_C10_no_nan_no_panic_witness :
    (hitFl [⟨some 2, 0⟩, ⟨some 1, 1⟩]).isSome ∧ (sortFl [⟨some 2, 0⟩, ⟨some 1, 1⟩]).isSome :=
  claim_C10_no_nan_no_panic [⟨some 2, 0⟩, ⟨some 1, 1⟩]
    (by
      intro i hi
      simp only [List.mem_cons, List.not_mem_nil, or_false] at hi
      rcases hi with h | h <;> subst h <;> simp)

/-- C9: the Schlick reflectance equals `r0 + (1−r0)(1−cos)⁵` with
`r0 = ((n1−n2)/(n1+n2))²`, where `cos` is the eye/normal cosine, replaced by
the transmitted cosine when `n1 > n2`; at `n1 = n2` and normal incidence
(`cos = 1`) it equals `r0 = 0`; and under total internal reflection
(`n1 > n2`, `sin²θₜ > 1`) it equals exactly 1. -/
theorem claim_C9_schlick :
    (∀ comps : Comps, ¬comps.n2 < comps.n1 →
      schlick comps = ((comps.n1 - comps.n2) / (comps.n1 + comps.n2)) ^ 2 +
        (1 - ((comps.n1 - comps.n2) / (comps.n1 + comps.n2)) ^ 2) *
          (1 - dotT comps.eyev comps.normalv) ^ 5) ∧
    (∀ comps : Comps, comps.n2 < comps.n1 →
      ¬1 < comps.n1 / comps.n2 * (comps.n1 / comps.n2) *
          (1 - dotT comps.eyev comps.normalv * dotT comps.eyev comps.normalv) →
      schlick comps = ((comps.n1 - comps.n2) / (comps.n1 + comps.n2)) ^ 2 +
        (1 - ((comps.n1 - comps.n2) / (comps.n1 + comps.n2)) ^ 2) *
          (1 - ratSqrt (1 - comps.n1 / comps.n2 * (comps.n1 / comps.n2) *
            (1 - dotT comps.eyev comps.normalv * dotT comps.eyev comps.normalv))) ^ 5) ∧
    (∀ comps : Comps, comps.n1 = comps.n2 → dotT comps.eyev comps.normalv = 1 →
      schlick comps = 0 ∧ ((comps.n1 - comps.n2) / (comps.n1 + comps.n2)) ^ 2 = 0) ∧
    (∀ comps : Comps, comps.n2 < comps.n1 →
      1 < comps.n1 / comps.n2 * (comps.n1 / comps.n2) *
          (1 - dotT comps.eyev comps.normalv * dotT comps.eyev comps.normalv) →
      schlick comps = 1) := by
  refine ⟨?_, ?_, ?_, ?_⟩
  · intro comps h
    simp only [schlick]
    rw [if_neg h]
  · intro comps h h2
    simp only [schlick]
    rw [if_pos h, if_neg h2]
  · intro comps h hcos
    have hlt : ¬comps.n2 < comps.n1 := h ▸ lt_irrefl comps.n1
    simp only [schlick]
    rw [if_neg hlt, hcos, h, sub_self]
    norm_num
  · intro comps h h2
    simp only [schlick]
    rw [if_pos h, if_pos h2]

/-- Fixture for the normal-incidence branch of C9: `n1 = n2 = 1.5`,
eye and normal aligned. -/
def c9CompsNormal : Comps :=
  ⟨0, Shape.new ShapeType.sphere, pointT 0 0 0, pointT 0 0 0, pointT 0 0 0,
   vectorT 0 0 1, vectorT 0 0 1, vectorT 0 0 1, False, 3/2, 3/2⟩

/-- Fixture for the total-internal-reflection branch of C9: `n1 = 2 > n2 = 1`,
grazing geometry (`cos = 0`). -/
def c9CompsTIR : Comps :=
  ⟨0, Shape.new ShapeType.sphere, pointT 0 0 0, pointT 0 0 0, pointT 0 0 0,
   vectorT 1 0 0, vectorT 0 1 0, vectorT 0 0 1, False, 2, 1⟩

/-- Witness for C9: the two boundary branches at concrete inputs. -/
theorem claim_C9_schlick_witness :
    schlick c9CompsNormal = 0 ∧ schlick c9CompsTIR = 1 := by
  constructor
  · refine (claim_C9_schlick.2.2.1 c9CompsNormal rfl ?_).1
    norm_num [c9CompsNormal, dotT, vectorT]
  · refine claim_C9_schlick.2.2.2 c9CompsTIR (by norm_num [c9CompsTIR]) ?_
    norm_num [c9CompsTIR, dotT, vectorT]

theorem reflectedGas_agree (recO : Ray → Option Color) (recP : Ray → Color) (comps : Comps)
    (remaining : Nat) (h : 0 < remaining → ∀ r, recO r = some (recP r)) :
    reflectedColorGas recO comps remaining = some (reflectedColorW recP comps remaining) := by
  unfold reflectedColorGas reflectedColorW
  by_cases hc : 0 < remaining ∧ 0 < comps.shape.material.reflective
  · rw [if_pos hc, if_pos hc, h hc.1]
    rfl
  · rw [if_neg hc, if_neg hc]

theorem refractedGas_agree (recO : Ray → Option Color) (recP : Ray → Color) (comps : Comps)
    (remaining : Nat) (h : 0 < remaining → ∀ r, recO r = some (recP r)) :
    refractedColorGas recO comps remaining = some (refractedColorW recP comps remaining) := by
  unfold refractedColorGas refractedColorW
  by_cases hc : remaining = 0 ∨ comps.shape.material.transparency = 0
  · rw [if_pos hc, if_pos hc]
  · rw [if_neg hc, if_neg hc]
    have hrem : 0 < remaining := Nat.pos_of_ne_zero (fun h0 => hc (Or.inl h0))
    by_cases hs : 1 < comps.n1 / comps.n2 * (comps.n1 / comps.n2) *
        (1 - dotT comps.eyev comps.normalv * dotT comps.eyev comps.normalv)
    · simp only [pow_two] at *
      rw [if_pos (by ring_nf; ring_nf at hs; exact hs), if_pos (by ring_nf; ring_nf at hs; exact hs)]
    · simp only [pow_two] at *
      rw [if_neg (by ring_nf; ring_nf at hs; exact hs), if_neg (by ring_nf; ring_nf at hs; exact hs),
        h hrem]
      rfl

theorem shadeHitGas_agree (recO : Ray → Option Color) (recP : Ray → Color) (w : World)
    (comps : Comps) (remaining : Nat) (h : 0 < remaining → ∀ r, recO r = some (recP r)) :
    shadeHitGas recO w comps remaining = some (shadeHitW recP w comps remaining) := by
  unfold shadeHitGas shadeHitW
  rw [reflectedGas_agree recO recP comps remaining h, refractedGas_agree recO recP comps remaining h]
  rfl

theorem colorAtGas_agree (w : World) :
    ∀ (gas remaining : Nat) (ray : Ray), remaining < gas →
      colorAtGas w gas remaining ray = some (colorAt w remaining ray) := by
  intro gas
  induction gas with
  | zero =>
    intro remaining ray h
    exact absurd h (Nat.not_lt_zero _)
  | succ g ih =>
    intro remaining ray h
    cases remaining with
    | zero =>
      simp only [colorAtGas, colorAt, colorAtBody]
      cases hh : hitI (worldIntersect w ray) with
      | none => rfl
      | some i =>
        exact shadeHitGas_agree _ _ _ _ _ (fun h0 => absurd h0 (lt_irrefl 0))
    | succ n =>
      simp only [colorAtGas, colorAt, colorAtBody]
      cases hh : hitI (worldIntersect w ray) with
      | none => rfl
      | some i =>
        refine shadeHitGas_agree _ _ _ _ _ (fun _ r => ?_)
        have : n < g := Nat.lt_of_succ_lt_succ h
        simpa using ih n r this

/-- C5: at `remaining = 0` both the reflected and the refracted contribution
are black regardless of the material and of the recursive continuation, and
`color_at` terminates within call depth `remaining` (running it with any gas
budget strictly larger than `remaining` completes, with every bounce spending
one unit of the strictly decreasing budget). -/
theorem claim_C5_recursion_bounded :
    (∀ (recurse : Ray → Color) (comps : Comps), reflectedColorW recurse comps 0 = Color.black) ∧
    (∀ (recurse : Ray → Color) (comps : Comps), refractedColorW recurse comps 0 = Color.black) ∧
    (∀ (w : World) (gas remaining : Nat) (ray : Ray), remaining < gas →
      colorAtGas w gas remaining ray = some (colorAt w remaining ray)) := by
  refine ⟨?_, ?_, fun w gas remaining ray h => colorAtGas_agree w gas remaining ray h⟩
  · intro recurse comps
    unfold reflectedColorW
    rw [if_neg]
    intro hc
    exact absurd hc.1 (lt_irrefl 0)
  · intro recurse comps
    unfold refractedColorW
    rw [if_pos (Or.inl rfl)]

/-- Witness for C5: an empty world, gas 1, budget 0. -/
theorem claim_C5_recursion_bounded_witness :
    (0 : Nat) < 1 ∧
    colorAtGas ⟨⟨Color.white, pointT 0 0 0⟩, []⟩ 1 0 ⟨pointT 0 0 0, vectorT 0 0 1⟩ =
      some (colorAt ⟨⟨Color.white, pointT 0 0 0⟩, []⟩ 0 ⟨pointT 0 0 0, vectorT 0 0 1⟩) :=
  ⟨Nat.zero_lt_one,
   claim_C5_recursion_bounded.2.2 ⟨⟨Color.white, pointT 0 0 0⟩, []⟩ 1 0
     ⟨pointT 0 0 0, vectorT 0 0 1⟩ Nat.zero_lt_one⟩

/-- C4 (against: render writes every pixel of the hsize×vsize canvas): the
loops `for y in 0..height()-1 { for x in 0..width()-1 }` write exactly the
coordinates with `x < hsize − 1` and `y < vsize − 1`, skipping the whole last
row and last column; in particular a 2×2 camera never writes pixel (1, 1).
Each written pixel does receive the color of its own ray at the spec's
initial budget 5. -/
theorem claim_C4_render_skips_last_row_col :
    (∀ (cam : Camera) (w : World),
      (render cam w).map Prod.fst = renderCoords cam.hsize cam.vsize) ∧
    (∀ (cam : Camera) (w : World), ∀ p ∈ render cam w,
      p.2 = colorAt w 5 (rayForPixel cam p.1.1 p.1.2)) ∧
    (∀ width height x y, (x, y) ∈ renderCoords width height ↔ x < width - 1 ∧ y < height - 1) ∧
    (1, 1) ∉ renderCoords 2 2 := by
  refine ⟨?_, ?_, ?_, ?_⟩
  · intro cam w
    simp [render, renderCoords, List.map_flatten, List.map_map, Function.comp_def]
  · intro cam w p hp
    simp only [render, List.mem_flatten, List.mem_map, List.mem_range] at hp
    obtain ⟨row, ⟨y, hy, hrow⟩, hprow⟩ := hp
    subst hrow
    simp only [List.mem_map, List.mem_range] at hprow
    obtain ⟨x, hx, hpx⟩ := hprow
    subst hpx
    rfl
  · intro width height x y
    simp only [renderCoords, List.mem_flatten, List.mem_map, List.mem_range]
    constructor
    · rintro ⟨row, ⟨y', hy', hrow⟩, hmem⟩
      subst hrow
      simp only [List.mem_map, List.mem_range, Prod.mk.injEq] at hmem
      obtain ⟨x', hx', hxx, hyy⟩ := hmem
      exact ⟨hxx ▸ hx', hyy ▸ hy'⟩
    · rintro ⟨hx, hy⟩
      exact ⟨(List.range (width - 1)).map (fun x' => (x', y)), ⟨y, hy, rfl⟩,
        List.mem_map.mpr ⟨x, List.mem_range.mpr hx, rfl⟩⟩
  · decide

/-- The container stack after processing a list of intersections (the fold of
the membership toggle, as performed by the loop in
`prepare_computations_with_intersections`). -/
def containerStack (xs : List Intersection) (containers : List Shape) : List Shape :=
  xs.foldl (fun cs i => toggleContainers cs i.shape) containers

theorem n1n2Go_skip (target : Intersection) (l : List Intersection) :
    ∀ (containers : List Shape) (acc : ℚ × ℚ), (∀ j ∈ l, interEq j target = false) →
      n1n2Go target l containers acc = acc := by
  induction l with
  | nil => intro containers acc _; rfl
  | cons i rest ih =>
    intro containers acc h
    simp only [n1n2Go, h i (List.mem_cons_self i rest), Bool.false_eq_true, if_false]
    exact ih _ _ (fun j hj => h j (List.mem_cons_of_mem _ hj))

theorem n1n2Go_append (target : Intersection) (pre : List Intersection) :
    ∀ (rest : List Intersection) (containers : List Shape) (acc : ℚ × ℚ),
      (∀ j ∈ pre, interEq j target = false) →
      n1n2Go target (pre ++ rest) containers acc =
        n1n2Go target rest (containerStack pre containers) acc := by
  induction pre with
  | nil => intro rest containers acc _; rfl
  | cons i restPre ih =>
    intro rest containers acc h
    simp only [List.cons_append, n1n2Go, h i (List.mem_cons_self i restPre), Bool.false_eq_true,
      if_false]
    exact ih rest _ acc (fun j hj => h j (List.mem_cons_of_mem _ hj))

/-- Outermost glass sphere of the nested-spheres fixture
(`find_n1_n2_test`, intersections.rs): scaled 2, refractive index 1.5. -/
def c2A : Shape :=
  ⟨ShapeType.sphere, scaleM 2 2 2, { Material.new with transparency := 1, refractiveIndex := 3/2 }⟩

/-- Middle glass sphere: translated −0.25 in z, refractive index 2. -/
def c2B : Shape :=
  ⟨ShapeType.sphere, translateM 0 0 (-1/4),
   { Material.new with transparency := 1, refractiveIndex := 2 }⟩

/-- Inner glass sphere: translated 0.25 in z, refractive index 2.5. -/
def c2C : Shape :=
  ⟨ShapeType.sphere, translateM 0 0 (1/4),
   { Material.new with transparency := 1, refractiveIndex := 5/2 }⟩

/-- The fixture ray from (0,0,−4) along +z. -/
def c2Ray : Ray := ⟨pointT 0 0 (-4), vectorT 0 0 1⟩

/-- The six ordered fixture intersections. -/
def c2Xs : List Intersection :=
  [⟨2, c2A⟩, ⟨11/4, c2B⟩, ⟨13/4, c2C⟩, ⟨19/4, c2B⟩, ⟨21/4, c2C⟩, ⟨6, c2A⟩]

theorem c2A_refr : c2A.material.refractiveIndex = 3/2 := rfl

theorem c2B_refr : c2B.material.refractiveIndex = 2 := rfl

theorem c2C_refr : c2C.material.refractiveIndex = 5/2 := rfl

theorem shapeEq_AA : shapeEq c2A c2A = true := by
  norm_num [shapeEq, mat4ApproxEq, materialEq, patternEq, c2A, Material.new, scaleM, matCmpEps]

theorem shapeEq_BB : shapeEq c2B c2B = true := by
  norm_num [shapeEq, mat4ApproxEq, materialEq, patternEq, c2B, Material.new, translateM, matCmpEps]

theorem shapeEq_CC : shapeEq c2C c2C = true := by
  norm_num [shapeEq, mat4ApproxEq, materialEq, patternEq, c2C, Material.new, translateM, matCmpEps]

theorem shapeEq_AB : shapeEq c2A c2B = false := by
  norm_num [shapeEq, mat4ApproxEq, materialEq, patternEq, c2A, c2B, Material.new, scaleM,
    translateM, matCmpEps]

theorem shapeEq_BA : shapeEq c2B c2A = false := by
  norm_num [shapeEq, mat4ApproxEq, materialEq, patternEq, c2A, c2B, Material.new, scaleM,
    translateM, matCmpEps]

theorem shapeEq_AC : shapeEq c2A c2C = false := by
  norm_num [shapeEq, mat4ApproxEq, materialEq, patternEq, c2A, c2C, Material.new, scaleM,
    translateM, matCmpEps]

theorem shapeEq_CA : shapeEq c2C c2A = false := by
  norm_num [shapeEq, mat4ApproxEq, materialEq, patternEq, c2A, c2C, Material.new, scaleM,
    translateM, matCmpEps]

theorem shapeEq_BC : shapeEq c2B c2C = false := by
  norm_num [shapeEq, mat4ApproxEq, materialEq, patternEq, c2B, c2C, Material.new, translateM,
    matCmpEps]

theorem shapeEq_CB : shapeEq c2C c2B = false := by
  norm_num [shapeEq, mat4ApproxEq, materialEq, patternEq, c2B, c2C, Material.new, translateM,
    matCmpEps]

/-- C2: walking the sorted intersection list with the container stack, `n1` is
the refractive index at the top of the stack just before the target (vacuum
1.0 if empty), membership of each visited shape is toggled, and `n2` is the
top just after toggling the target's shape; and the three nested glass
spheres (scaled 2/1/1, indices 1.5/2.0/2.5) met at t = 2, 2.75, 3.25, 4.75,
5.25, 6 yield (n1, n2) pairs (1,1.5), (1.5,2), (2,2.5), (2.5,2.5), (2.5,1.5),
(1.5,1). -/
theorem claim_C2_refractive_stack :
    (∀ (target tEl : Intersection) (ray : Ray) (pre post : List Intersection),
      (∀ j ∈ pre, interEq j target = false) → interEq tEl target = true →
      (∀ j ∈ post, interEq j target = false) →
      (prepareComputationsWithIntersections target ray (pre ++ tEl :: post)).n1 =
        refrTop (containerStack pre []) ∧
      (prepareComputationsWithIntersections target ray (pre ++ tEl :: post)).n2 =
        refrTop (toggleContainers (containerStack pre []) tEl.shape)) ∧
    ((prepareComputationsWithIntersections ⟨2, c2A⟩ c2Ray c2Xs).n1 = 1 ∧
      (prepareComputationsWithIntersections ⟨2, c2A⟩ c2Ray c2Xs).n2 = 3/2 ∧
      (prepareComputationsWithIntersections ⟨11/4, c2B⟩ c2Ray c2Xs).n1 = 3/2 ∧
      (prepareComputationsWithIntersections ⟨11/4, c2B⟩ c2Ray c2Xs).n2 = 2 ∧
      (prepareComputationsWithIntersections ⟨13/4, c2C⟩ c2Ray c2Xs).n1 = 2 ∧
      (prepareComputationsWithIntersections ⟨13/4, c2C⟩ c2Ray c2Xs).n2 = 5/2 ∧
      (prepareComputationsWithIntersections ⟨19/4, c2B⟩ c2Ray c2Xs).n1 = 5/2 ∧
      (prepareComputationsWithIntersections ⟨19/4, c2B⟩ c2Ray c2Xs).n2 = 5/2 ∧
      (prepareComputationsWithIntersections ⟨21/4, c2C⟩ c2Ray c2Xs).n1 = 5/2 ∧
      (prepareComputationsWithIntersections ⟨21/4, c2C⟩ c2Ray c2Xs).n2 = 3/2 ∧
      (prepareComputationsWithIntersections ⟨6, c2A⟩ c2Ray c2Xs).n1 = 3/2 ∧
      (prepareComputationsWithIntersections ⟨6, c2A⟩ c2Ray c2Xs).n2 = 1) := by
  constructor
  · intro target tEl ray pre post hpre htgt hpost
    have key : n1n2Go target (pre ++ tEl :: post) [] (1, 1) =
        (refrTop (containerStack pre []),
         refrTop (toggleContainers (containerStack pre []) tEl.shape)) := by
      rw [n1n2Go_append target pre (tEl :: post) [] (1, 1) hpre]
      simp only [n1n2Go, htgt, if_true]
      exact n1n2Go_skip target post _ _ hpost
    constructor
    · simp only [prepareComputationsWithIntersections, key]
    · simp only [prepareComputationsWithIntersections, key]
  · refine ⟨?_, ?_, ?_, ?_, ?_, ?_, ?_, ?_, ?_, ?_, ?_, ?_⟩ <;>
    · simp only [prepareComputationsWithIntersections]
      norm_num [c2Xs, n1n2Go, interEq, toggleContainers, findShapeIdx, refrTop,
        shapeEq_AA, shapeEq_AB, shapeEq_AC, shapeEq_BA, shapeEq_BB, shapeEq_BC,
        shapeEq_CA, shapeEq_CB, shapeEq_CC, c2A_refr, c2B_refr, c2C_refr,
        List.eraseIdx, List.getLast?]

/-- Witness for C2: the general stack characterization applied at the second
fixture intersection. -/
theorem claim_C2_refractive_stack_witness :
    (prepareComputationsWithIntersections ⟨11/4, c2B⟩ c2Ray
        ([⟨2, c2A⟩] ++ ⟨11/4, c2B⟩ ::
          [⟨13/4, c2C⟩, ⟨19/4, c2B⟩, ⟨21/4, c2C⟩, ⟨6, c2A⟩])).n1 =
      refrTop (containerStack [⟨2, c2A⟩] []) ∧
    (prepareComputationsWithIntersections ⟨11/4, c2B⟩ c2Ray
        ([⟨2, c2A⟩] ++ ⟨11/4, c2B⟩ ::
          [⟨13/4, c2C⟩, ⟨19/4, c2B⟩, ⟨21/4, c2C⟩, ⟨6, c2A⟩])).n2 =
      refrTop (toggleContainers (containerStack [⟨2, c2A⟩] []) c2B) := by
  refine claim_C2_refractive_stack.1 ⟨11/4, c2B⟩ ⟨11/4, c2B⟩ c2Ray [⟨2, c2A⟩]
    [⟨13/4, c2C⟩, ⟨19/4, c2B⟩, ⟨21/4, c2C⟩, ⟨6, c2A⟩] ?_ ?_ ?_
  · intro j hj
    simp only [List.mem_cons, List.not_mem_nil, or_false] at hj
    subst hj
    norm_num [interEq]
  · norm_num [interEq, shapeEq_BB]
  · intro j hj
    simp only [List.mem_cons, List.not_mem_nil, or_false] at hj
    rcases hj with h | h | h | h <;> subst h <;> norm_num [interEq, shapeEq_CB, shapeEq_AB]

theorem ratSqrt_one : ratSqrt 1 = 1 := by
  rw [ratSqrt, if_neg (by norm_num)]
  norm_num [show Int.toNat 1 = 1 from rfl, show (1 : ℚ).den = 1 from rfl, natSqrt_one]

theorem c3_position : Ray.position ⟨pointT 0 0 0, vectorT 0 0 1⟩ 1 = pointT 0 0 1 := by
  norm_num [Ray.position, addT, smulT, pointT, vectorT]

theorem c3_normal : Shape.normal (Shape.new ShapeType.sphere) (pointT 0 0 1) = vectorT 0 0 1 := by
  simp only [Shape.normal, Shape.new, identity_inverseD]
  norm_num [mulMT, Mat4x4.transpose, Mat4x4.identity, subT, pointT, normalizeT, magnitudeT,
    ratSqrt_one, vectorT]

/-- Counterexample to C3 as stated: for the inside hit of the unit sphere at
t = 1 seen from a ray at the origin, `inside` is set, yet the over point is
NOT the hit point nudged along the flipped normal `normalv` — the source
computes `over_point`/`under_point` from the normal BEFORE the inside flip
(and the repo's own `shading_an_intersection_from_the_inside` test pins the
resulting behavior). -/
theorem claim_C3_counterexample :
    (prepareComputations ⟨1, Shape.new ShapeType.sphere⟩
        ⟨pointT 0 0 0, vectorT 0 0 1⟩).inside ∧
    ¬((prepareComputations ⟨1, Shape.new ShapeType.sphere⟩
          ⟨pointT 0 0 0, vectorT 0 0 1⟩).overPoint =
        addT (prepareComputations ⟨1, Shape.new ShapeType.sphere⟩
            ⟨pointT 0 0 0, vectorT 0 0 1⟩).point
          (smulT (prepareComputations ⟨1, Shape.new ShapeType.sphere⟩
              ⟨pointT 0 0 0, vectorT 0 0 1⟩).normalv overPointEps)) := by
  constructor
  · show dotT _ _ < 0
    rw [show Intersection.t ⟨1, Shape.new ShapeType.sphere⟩ = 1 from rfl]
    rw [c3_position, c3_normal]
    norm_num [dotT, negT, vectorT]
  · simp only [prepareComputations]
    rw [c3_position, c3_normal]
    norm_num [dotT, negT, vectorT, addT, smulT, pointT, overPointEps, Tuple.mk.injEq]

/-- C3 (amended): `prepare_computations` flips the normal and sets `inside`
exactly when the ray originates inside (the unflipped normal points away from
the eye), but the over and under points are nudged along ± the UNFLIPPED
surface normal; hence for an inside hit the over point lies opposite the
flipped normal, not along it. -/
theorem claim_C3_amended :
    ∀ (i : Intersection) (r : Ray),
      (prepareComputations i r).point = r.position i.t ∧
      (prepareComputations i r).eyev = negT r.direction ∧
      (prepareComputations i r).overPoint =
        addT (r.position i.t) (smulT (i.shape.normal (r.position i.t)) overPointEps) ∧
      (prepareComputations i r).underPoint =
        subT (r.position i.t) (smulT (i.shape.normal (r.position i.t)) overPointEps) ∧
      ((prepareComputations i r).inside ↔
        dotT (i.shape.normal (r.position i.t)) (negT r.direction) < 0) ∧
      (prepareComputations i r).normalv =
        (if dotT (i.shape.normal (r.position i.t)) (negT r.direction) < 0 then
          negT (i.shape.normal (r.position i.t))
        else i.shape.normal (r.position i.t)) := by
  intro i r
  exact ⟨rfl, rfl, rfl, rfl, Iff.rfl, rfl⟩

/-- A 2×2 camera fixture with identity transform. -/
def c4Cam : Camera := ⟨2, 2, 1, Mat4x4.identity, 1, 1, 1⟩

/-- An empty world fixture. -/
def c4World : World := ⟨⟨Color.white, pointT 0 0 0⟩, []⟩

/-- Witness for C4's theorem: the single pixel a 2×2 render writes carries its
own ray's color. -/
theorem claim_C4_render_skips_last_row_col_witness :
    ((0, 0), colorAt c4World 5 (rayForPixel c4Cam 0 0)) ∈ render c4Cam c4World ∧
    ((0, 0), colorAt c4World 5 (rayForPixel c4Cam 0 0)).2 =
      colorAt c4World 5 (rayForPixel c4Cam 0 0) := by
  have hmem : ((0, 0), colorAt c4World 5 (rayForPixel c4Cam 0 0)) ∈ render c4Cam c4World := by
    simp [render, c4Cam, List.range_succ]
  exact ⟨hmem, claim_C4_render_skips_last_row_col.2.1 c4Cam c4World _ hmem⟩
